import Mathlib

/-!
Verification of the db-diff comparison-and-code-generation engine.

This file gives a shallow embedding of the core of the repository:
the schema model (internal/schema), the snapshot comparators
(internal/diff: Compare, compareSchemas, compareData and their helper
equality functions), and the SQL renderers (internal/generator:
DDLGenerator, DMLGenerator, GenerateSQL).

Modelling conventions:
- Go maps (map[string]T) are modelled as association lists with
  last-write-wins insertion (goMapOf / goFind below); the resulting
  lists have pairwise distinct keys, like a Go map.  Where the Go code
  ranges over a map, the embedding iterates the association list in
  insertion order: the content of every result is independent of this
  order, and for the one claim that is about emission order the order
  of iteration is taken as an explicit parameter (GenerateSQL).
- Dynamically typed scalar row values (interface\x7b\x7d holding a
  driver value) are modelled by the closed union Value below
  (null, integer, string, boolean), covering the cases the diff and
  rendering code distinguishes.
- Code that would dereference a possibly-nil pointer (the generator
  reading OldIndex/NewColumn/... from a change record) returns Option
  and yields none where Go would panic.
-/

namespace DbDiff

/-- Dynamically typed scalar row value (models interface\x7b\x7d). -/
inductive Value
  | vNull
  | vInt (n : Int)
  | vStr (s : String)
  | vBool (b : Bool)
  deriving DecidableEq, Repr

/-- Hexadecimal digit, used by the JSON escaper for control characters. -/
def hexDigit (n : Nat) : String :=
  (["0", "1", "2", "3", "4", "5", "6", "7", "8", "9", "a", "b", "c", "d", "e", "f"]).getD n "0"

/-- Escaping of one character as done by Go encoding/json for strings. -/
def jsonEscapeChar (c : Char) : String :=
  if c = '"' then "\\\""
  else if c = '\\' then "\\\\"
  else if c = '\n' then "\\n"
  else if c = '\r' then "\\r"
  else if c = '\t' then "\\t"
  else if c = '<' then "\\u003c"
  else if c = '>' then "\\u003e"
  else if c = '&' then "\\u0026"
  else if c.toNat < 32 then "\\u00" ++ hexDigit (c.toNat / 16) ++ hexDigit (c.toNat % 16)
  else String.singleton c

/-- JSON string quoting as done by Go encoding/json. -/
def jsonQuote (s : String) : String :=
  "\"" ++ String.join (s.data.map jsonEscapeChar) ++ "\""

/-- Result of Go json.Marshal on one scalar value. -/
def jsonMarshal : Value → String
  | .vNull => "null"
  | .vInt n => toString n
  | .vStr s => jsonQuote s
  | .vBool true => "true"
  | .vBool false => "false"

/-- Column of internal/schema: one database column. -/
structure Column where
  name : String
  type : String
  nullable : Bool
  defaultValue : Option String
  autoIncrement : Bool
  position : Int
  deriving DecidableEq, Repr

/-- Index of internal/schema: one database index. -/
structure Index where
  name : String
  columns : List String
  unique : Bool
  primary : Bool
  type : String
  deriving DecidableEq, Repr

/-- ForeignKey of internal/schema: one foreign key constraint. -/
structure ForeignKey where
  name : String
  column : String
  referencedTable : String
  referencedColumn : String
  onDelete : String
  onUpdate : String
  deriving DecidableEq, Repr

/-- TableSchema of internal/schema: a complete table schema. -/
structure TableSchema where
  name : String
  columns : List Column
  indexes : List Index
  foreignKeys : List ForeignKey
  deriving DecidableEq, Repr

/-- Row of internal/schema: map[string]interface\x7b\x7d, modelled as an
association list from column name to scalar value with distinct keys. -/
abbrev Row := List (String × Value)

/-- Table of internal/schema: schema plus captured rows. -/
structure Table where
  schema : TableSchema
  data : List Row
  deriving DecidableEq, Repr

/-- Snapshot of internal/snapshot: metadata and a table map. -/
structure Snapshot where
  metadata : List (String × String)
  tables : List (String × Table)
  deriving DecidableEq, Repr

/-! ## Go map model

A Go map[string]T is modelled as an association list with pairwise
distinct keys.  Insertion overwrites the binding of an existing key in
place and otherwise appends; lookup returns the unique binding. -/

/-- Insertion into the Go map model: overwrite the (unique) binding of an
existing key in place, otherwise append the new binding at the end. -/
def insertGo : List (String × α) → String → α → List (String × α)
  | [], k, v => [(k, v)]
  | p :: m, k, v => if p.1 == k then (k, v) :: m else p :: insertGo m k v

/-- Build the Go map model from a sequence of writes (later writes win). -/
def goMapOf (l : List (String × α)) : List (String × α) :=
  l.foldl (fun m p => insertGo m p.1 p.2) []

/-- Lookup in the Go map model. -/
def goFind (m : List (String × α)) (k : String) : Option α :=
  (m.find? (fun p => p.1 == k)).map (fun p => p.2)

/-- Value of the last write of key k in a write sequence. -/
def lookupLast (l : List (String × α)) (k : String) : Option α :=
  (l.reverse.find? (fun p => p.1 == k)).map (fun p => p.2)

theorem goFind_insertGo (m : List (String × α)) (k : String) (v : α) (k' : String) :
    goFind (insertGo m k v) k' = if k' = k then some v else goFind m k' := by
  induction m with
  | nil =>
    by_cases hk : k' = k
    · subst hk
      simp [insertGo, goFind, List.find?_cons]
    · have hne : ¬(k == k') = true := by
        simp only [beq_iff_eq]
        exact fun hh => hk hh.symm
      simp [insertGo, goFind, List.find?_cons, hne, hk]
  | cons p m ih =>
    by_cases hp : (p.1 == k) = true
    · have hpk : p.1 = k := beq_iff_eq.mp hp
      simp only [insertGo, if_pos hp]
      by_cases hk : k' = k
      · subst hk
        simp [goFind, List.find?_cons]
      · have hkk : ¬(k == k') = true := by
          simp only [beq_iff_eq]
          exact fun hh => hk hh.symm
        have hpk' : ¬(p.1 == k') = true := by
          simp only [beq_iff_eq, hpk]
          exact fun hh => hk hh.symm
        simp [goFind, List.find?_cons, hkk, hpk', hk]
    · simp only [insertGo, if_neg hp]
      by_cases hp' : (p.1 == k') = true
      · have hk : ¬(k' = k) := by
          intro hh
          subst hh
          exact hp hp'
        simp [goFind, List.find?_cons, hp', hk]
      · have h1 : goFind (p :: insertGo m k v) k' = goFind (insertGo m k v) k' := by
          simp [goFind, List.find?_cons, hp']
        have h2 : goFind (p :: m) k' = goFind m k' := by
          simp [goFind, List.find?_cons, hp']
        rw [h1, ih, h2]

theorem goFind_foldl_insert (l : List (String × α)) (m : List (String × α)) (k : String) :
    goFind (l.foldl (fun m p => insertGo m p.1 p.2) m) k =
      ((lookupLast l k).elim (goFind m k) some) := by
  induction l generalizing m with
  | nil => simp [lookupLast]
  | cons p l ih =>
    simp only [List.foldl_cons, ih, lookupLast, List.reverse_cons, List.find?_append]
    by_cases hl : (l.reverse.find? (fun q => q.1 == k)).isSome
    · obtain ⟨q, hq⟩ := Option.isSome_iff_exists.mp hl
      simp [hq]
    · rw [Option.not_isSome_iff_eq_none] at hl
      simp only [hl, Option.none_orElse, Option.map_none]
      by_cases hp : (p.1 == k) = true
      · have : (k : String) = p.1 := (beq_iff_eq.mp hp).symm
        simp [List.find?_cons, hp, goFind_insertGo, this]
      · have hne : ¬(k = p.1) := by
          intro hh
          exact hp (beq_iff_eq.mpr hh.symm)
        simp [List.find?_cons, hp, goFind_insertGo, hne]

/-- Lookup in the built Go map returns the value of the last write. -/
theorem goFind_goMapOf (l : List (String × α)) (k : String) :
    goFind (goMapOf l) k = lookupLast l k := by
  unfold goMapOf
  rw [goFind_foldl_insert]
  cases h : lookupLast l k with
  | none => simp [goFind]
  | some v => simp

/-- Keys of the Go map model. -/
def goKeys (m : List (String × α)) : List String := m.map (fun p => p.1)

theorem mem_goKeys_insertGo (m : List (String × α)) (k : String) (v : α) (a : String)
    (ha : a ∈ goKeys (insertGo m k v)) : a ∈ goKeys m ∨ a = k := by
  induction m with
  | nil =>
    simp only [insertGo, goKeys, List.map_cons, List.map_nil, List.mem_singleton] at ha
    exact Or.inr ha
  | cons p m ih =>
    by_cases hp : (p.1 == k) = true
    · simp only [insertGo, if_pos hp, goKeys, List.map_cons, List.mem_cons] at ha
      rcases ha with ha | ha
      · exact Or.inr ha
      · exact Or.inl (by simp [goKeys, List.mem_cons]; right; simpa [goKeys] using ha)
    · simp only [insertGo, if_neg hp, goKeys, List.map_cons, List.mem_cons] at ha
      rcases ha with ha | ha
      · exact Or.inl (by simp [goKeys, ha])
      · rcases ih (by simpa [goKeys] using ha) with h | h
        · exact Or.inl (by simp [goKeys] at h ⊢; exact Or.inr h)
        · exact Or.inr h

theorem nodup_goKeys_insertGo (m : List (String × α)) (k : String) (v : α)
    (h : (goKeys m).Nodup) : (goKeys (insertGo m k v)).Nodup := by
  induction m with
  | nil => simp [insertGo, goKeys]
  | cons p m ih =>
    simp only [goKeys, List.map_cons, List.nodup_cons] at h
    by_cases hp : (p.1 == k) = true
    · have hpk : p.1 = k := beq_iff_eq.mp hp
      simp only [insertGo, if_pos hp, goKeys, List.map_cons, List.nodup_cons]
      exact ⟨by rw [← hpk]; simpa [goKeys] using h.1, by simpa [goKeys] using h.2⟩
    · simp only [insertGo, if_neg hp, goKeys, List.map_cons, List.nodup_cons]
      constructor
      · intro hmem
        rcases mem_goKeys_insertGo m k v p.1 (by simpa [goKeys] using hmem) with hh | hh
        · exact h.1 (by simpa [goKeys] using hh)
        · exact hp (beq_iff_eq.mpr hh)
      · simpa [goKeys] using ih (by simpa [goKeys] using h.2)

/-- The Go map model has pairwise distinct keys. -/
theorem nodup_goKeys_goMapOf (l : List (String × α)) : (goKeys (goMapOf l)).Nodup := by
  unfold goMapOf
  suffices h : ∀ m : List (String × α), (goKeys m).Nodup →
      (goKeys (l.foldl (fun m p => insertGo m p.1 p.2) m)).Nodup by
    exact h [] (by simp [goKeys])
  induction l with
  | nil => intro m hm; simpa using hm
  | cons p l ih =>
    intro m hm
    simp only [List.foldl_cons]
    exact ih _ (nodup_goKeys_insertGo m p.1 p.2 hm)

/-- On a map with distinct keys, membership determines lookup. -/
theorem goFind_of_mem_nodup (m : List (String × α)) (k : String) (v : α)
    (hnd : (goKeys m).Nodup) (hmem : (k, v) ∈ m) : goFind m k = some v := by
  induction m with
  | nil => simp at hmem
  | cons p m ih =>
    simp only [goKeys, List.map_cons, List.nodup_cons] at hnd
    rcases List.mem_cons.mp hmem with h | h
    · subst h
      simp [goFind, List.find?_cons]
    · have hpk : ¬(p.1 == k) = true := by
        simp only [beq_iff_eq]
        intro hh
        exact hnd.1 (List.mem_map.mpr ⟨(k, v), h, hh.symm⟩)
      have := ih (by simpa [goKeys] using hnd.2) h
      simpa [goFind, List.find?_cons, hpk] using this

theorem mem_insertGo (m : List (String × α)) (k : String) (v : α) (p : String × α)
    (hp : p ∈ insertGo m k v) : p ∈ m ∨ p = (k, v) := by
  induction m with
  | nil => simpa [insertGo] using hp
  | cons q m ih =>
    by_cases hq : (q.1 == k) = true
    · simp only [insertGo, if_pos hq, List.mem_cons] at hp
      rcases hp with h | h
      · exact Or.inr h
      · exact Or.inl (List.mem_cons_of_mem _ h)
    · simp only [insertGo, if_neg hq, List.mem_cons] at hp
      rcases hp with h | h
      · exact Or.inl (by simp [h])
      · rcases ih h with h' | h'
        · exact Or.inl (List.mem_cons_of_mem _ h')
        · exact Or.inr h'

/-- Every binding of the built map is one of the written pairs. -/
theorem mem_goMapOf (l : List (String × α)) (p : String × α) (hp : p ∈ goMapOf l) : p ∈ l := by
  unfold goMapOf at hp
  have key : ∀ (l : List (String × α)) (m : List (String × α)) (p : String × α),
      p ∈ l.foldl (fun m q => insertGo m q.1 q.2) m → p ∈ m ∨ p ∈ l := by
    intro l
    induction l with
    | nil => intro m p hm; exact Or.inl (by simpa using hm)
    | cons q l ih =>
      intro m p hm
      simp only [List.foldl_cons] at hm
      rcases ih _ _ hm with h' | h'
      · rcases mem_insertGo m q.1 q.2 p h' with h'' | h''
        · exact Or.inl h''
        · exact Or.inr (by simp [h''])
      · exact Or.inr (List.mem_cons_of_mem _ h')
  rcases key l [] p hp with h | h
  · simp at h
  · exact h

/-! ## internal/diff: types and the schema comparator -/

/-- Action of internal/diff: the three-valued change tag. -/
inductive Action
  | add
  | drop
  | modify
  deriving DecidableEq, Repr

instance : BEq Action := ⟨fun a b => decide (a = b)⟩

/-- ColumnChange of internal/diff. -/
structure ColumnChange where
  columnName : String
  action : Action
  oldColumn : Option Column
  newColumn : Option Column
  deriving DecidableEq, Repr

/-- IndexChange of internal/diff. -/
structure IndexChange where
  indexName : String
  action : Action
  oldIndex : Option Index
  newIndex : Option Index
  deriving DecidableEq, Repr

/-- ForeignKeyChange of internal/diff. -/
structure ForeignKeyChange where
  fkName : String
  action : Action
  oldForeignKey : Option ForeignKey
  newForeignKey : Option ForeignKey
  deriving DecidableEq, Repr

/-- SchemaDiff of internal/diff. -/
structure SchemaDiff where
  tableName : String
  action : Action
  oldSchema : Option TableSchema
  newSchema : Option TableSchema
  columnChanges : List ColumnChange
  indexChanges : List IndexChange
  foreignKeyChanges : List ForeignKeyChange
  deriving DecidableEq, Repr

/-- RowModification of internal/diff. -/
structure RowModification where
  oldRow : Row
  newRow : Row
  deriving DecidableEq, Repr

/-- DataDiff of internal/diff. -/
structure DataDiff where
  tableName : String
  rowsAdded : List Row
  rowsDeleted : List Row
  rowsModified : List RowModification
  deriving DecidableEq, Repr

/-- DiffResult of internal/diff: both result maps. -/
structure DiffResult where
  schemaDiffs : List (String × SchemaDiff)
  dataDiffs : List (String × DataDiff)
  deriving DecidableEq, Repr

/-- columnsEqual of internal/diff: field-wise column comparison; the
Position field is not compared. -/
def columnsEqual (a b : Column) : Bool :=
  a.name == b.name && a.type == b.type && a.nullable == b.nullable &&
  a.autoIncrement == b.autoIncrement &&
  (match a.defaultValue, b.defaultValue with
   | none, none => true
   | some x, some y => x == y
   | _, _ => false)

/-- indexesEqual of internal/diff: name, uniqueness, primary flag and the
ordered column list are compared; the Type field is not. -/
def indexesEqual (a b : Index) : Bool :=
  a.name == b.name && a.unique == b.unique && a.primary == b.primary &&
  a.columns == b.columns

/-- foreignKeysEqual of internal/diff. -/
def foreignKeysEqual (a b : ForeignKey) : Bool :=
  a.name == b.name && a.column == b.column && a.referencedTable == b.referencedTable &&
  a.referencedColumn == b.referencedColumn && a.onDelete == b.onDelete &&
  a.onUpdate == b.onUpdate

/-- Name-keyed set reconciliation, the pattern compareSchemas runs three
times (columns, indexes, foreign keys): ranging over the new map yields
ADD and MODIFY records, then ranging over the old map yields DROP
records; equal entries are omitted. -/
def diffNamed (oldM newM : List (String × α)) (eqFn : α → α → Bool)
    (mk : String → Action → Option α → Option α → β) : List β :=
  (newM.filterMap fun p =>
    match goFind oldM p.1 with
    | some oldV =>
      if eqFn oldV p.2 then none
      else some (mk p.1 Action.modify (some oldV) (some p.2))
    | none => some (mk p.1 Action.add none (some p.2)))
  ++ (oldM.filterMap fun p =>
    match goFind newM p.1 with
    | some _ => none
    | none => some (mk p.1 Action.drop (some p.2) none))

/-- compareSchemas of internal/diff: compares two table schemas and
returns none when no change list is nonempty. -/
def compareSchemas (old new : TableSchema) : Option SchemaDiff :=
  let oldColumns := goMapOf (old.columns.map fun c => (c.name, c))
  let newColumns := goMapOf (new.columns.map fun c => (c.name, c))
  let columnChanges := diffNamed oldColumns newColumns columnsEqual
    (fun n a o nw => { columnName := n, action := a, oldColumn := o, newColumn := nw })
  let oldIndexes := goMapOf (old.indexes.map fun i => (i.name, i))
  let newIndexes := goMapOf (new.indexes.map fun i => (i.name, i))
  let indexChanges := diffNamed oldIndexes newIndexes indexesEqual
    (fun n a o nw => { indexName := n, action := a, oldIndex := o, newIndex := nw })
  let oldFKs := goMapOf (old.foreignKeys.map fun f => (f.name, f))
  let newFKs := goMapOf (new.foreignKeys.map fun f => (f.name, f))
  let foreignKeyChanges := diffNamed oldFKs newFKs foreignKeysEqual
    (fun n a o nw => { fkName := n, action := a, oldForeignKey := o, newForeignKey := nw })
  if columnChanges.isEmpty && indexChanges.isEmpty && foreignKeyChanges.isEmpty then none
  else some {
    tableName := new.name
    action := Action.modify
    oldSchema := some old
    newSchema := some new
    columnChanges := columnChanges
    indexChanges := indexChanges
    foreignKeyChanges := foreignKeyChanges }

/-! ## internal/diff: the data comparator -/

/-- getPrimaryKeyColumns of internal/diff: columns of the first index
marked primary. -/
def getPrimaryKeyColumns (tableSchema : TableSchema) : List String :=
  match tableSchema.indexes.find? (fun i => i.primary) with
  | some index => index.columns
  | none => []

/-- Lookup of a column value in a row (Go map indexing; a missing key
yields the nil interface, modelled as none). -/
def lookupRow (row : Row) (col : String) : Option Value :=
  ((row : List (String × Value)).find? (fun p => p.1 == col)).map (fun p => p.2)

/-- rowKey of internal/diff: JSON encoding of the array of primary-key
values of a row (a missing column marshals as null). -/
def rowKey (row : Row) (pkColumns : List String) : String :=
  "[" ++
    String.intercalate ","
      (pkColumns.map (fun col =>
        match lookupRow row col with
        | some v => jsonMarshal v
        | none => "null")) ++
  "]"

/-- rowsEqual of internal/diff: equal key count and, for every column of
the first row, a binding in the second row with the identical JSON
encoding. -/
def rowsEqual (a b : Row) : Bool :=
  (a : List (String × Value)).length == (b : List (String × Value)).length &&
  (a : List (String × Value)).all (fun p =>
    match lookupRow b p.1 with
    | none => false
    | some valB => jsonMarshal p.2 == jsonMarshal valB)

/-- Row map of compareData: rows keyed by their primary-key value tuple,
later rows overwriting earlier ones with the same key. -/
def rowMapOf (data : List Row) (pkColumns : List String) : List (String × Row) :=
  goMapOf (data.map fun row => (rowKey row pkColumns, row))

/-- Added rows of compareData: in the new map, absent from the old map. -/
def rowsAddedOf (oldRows newRows : List (String × Row)) : List Row :=
  newRows.filterMap fun p =>
    match goFind oldRows p.1 with
    | some _ => none
    | none => some p.2

/-- Modified rows of compareData: present in both maps, not rowsEqual. -/
def rowsModifiedOf (oldRows newRows : List (String × Row)) : List RowModification :=
  newRows.filterMap fun p =>
    match goFind oldRows p.1 with
    | some oldRow =>
      if rowsEqual oldRow p.2 then none
      else some { oldRow := oldRow, newRow := p.2 }
    | none => none

/-- Deleted rows of compareData: in the old map, absent from the new map. -/
def rowsDeletedOf (oldRows newRows : List (String × Row)) : List Row :=
  oldRows.filterMap fun p =>
    match goFind newRows p.1 with
    | some _ => none
    | none => some p.2

/-- compareData of internal/diff.  With no primary key the whole old and
new row sets are reported as deleted and added when the counts differ,
and the initial (all-empty) diff value is returned as is when the counts
are equal; with a primary key the three lists are computed from the two
key maps and none is returned when all three are empty. -/
def compareData (tableName : String) (oldData newData : List Row)
    (tableSchema : TableSchema) : Option DataDiff :=
  let pkColumns := getPrimaryKeyColumns tableSchema
  if pkColumns.isEmpty then
    if oldData.length != newData.length then
      some { tableName := tableName, rowsAdded := newData, rowsDeleted := oldData,
             rowsModified := [] }
    else
      some { tableName := tableName, rowsAdded := [], rowsDeleted := [], rowsModified := [] }
  else
    let oldRows := rowMapOf oldData pkColumns
    let newRows := rowMapOf newData pkColumns
    let rowsAdded := rowsAddedOf oldRows newRows
    let rowsModified := rowsModifiedOf oldRows newRows
    let rowsDeleted := rowsDeletedOf oldRows newRows
    if rowsAdded.isEmpty && rowsDeleted.isEmpty && rowsModified.isEmpty then none
    else some { tableName := tableName, rowsAdded := rowsAdded, rowsDeleted := rowsDeleted,
                rowsModified := rowsModified }

/-! ## internal/diff: the orchestrator -/

/-- The set of table names seen across both snapshots, as built by
Compare (a map from name to true). -/
def compareTableNames (t1m t2m : List (String × Table)) : List (String × Bool) :=
  goMapOf ((t1m.map fun p => (p.1, true)) ++ (t2m.map fun p => (p.1, true)))

/-- Per-table schema entry of Compare. -/
def compareSchemaEntry (t1m t2m : List (String × Table)) (tableName : String) :
    Option SchemaDiff :=
  match goFind t1m tableName, goFind t2m tableName with
  | none, some table2 =>
    some { tableName := tableName, action := Action.add, oldSchema := none,
           newSchema := some table2.schema, columnChanges := [], indexChanges := [],
           foreignKeyChanges := [] }
  | some table1, none =>
    some { tableName := tableName, action := Action.drop, oldSchema := some table1.schema,
           newSchema := none, columnChanges := [], indexChanges := [],
           foreignKeyChanges := [] }
  | some table1, some table2 => compareSchemas table1.schema table2.schema
  | none, none => none

/-- Per-table data entry of Compare: only tables present in both
snapshots are compared, with the schema taken from the second snapshot. -/
def compareDataEntry (t1m t2m : List (String × Table)) (tableName : String) :
    Option DataDiff :=
  match goFind t1m tableName, goFind t2m tableName with
  | some table1, some table2 => compareData tableName table1.data table2.data table2.schema
  | _, _ => none

/-- Compare of internal/diff: one pass over the union of table names,
filling the two result maps. -/
def Compare (snap1 snap2 : Snapshot) : DiffResult :=
  let t1m := goMapOf snap1.tables
  let t2m := goMapOf snap2.tables
  let tableNames := compareTableNames t1m t2m
  { schemaDiffs := tableNames.filterMap fun p =>
      (compareSchemaEntry t1m t2m p.1).map (fun d => (p.1, d))
    dataDiffs := tableNames.filterMap fun p =>
      (compareDataEntry t1m t2m p.1).map (fun d => (p.1, d)) }

/-! ## internal/generator: the DML renderer -/

/-- Single-quote character, written via its code point. -/
def squote : String := String.singleton (Char.ofNat 39)

/-- DMLGenerator of internal/generator. -/
structure DMLGenerator where
  dbType : String

/-- NewDMLGenerator of internal/generator. -/
def NewDMLGenerator (dbType : String) : DMLGenerator := ⟨dbType⟩

/-- quoteIdentifier of the DML generator: double quotes for postgres,
backticks for MySQL. -/
def DMLGenerator.quoteIdentifier (g : DMLGenerator) (name : String) : String :=
  if g.dbType == "postgres" || g.dbType == "PostgreSQL" then
    "\"" ++ name ++ "\""
  else
    "`" ++ name ++ "`"

/-- formatValue of the DML generator: SQL literal for one scalar value. -/
def DMLGenerator.formatValue (g : DMLGenerator) : Value → String
  | .vNull => "NULL"
  | .vStr s => squote ++ (s.replace squote (squote ++ squote)) ++ squote
  | .vInt n => toString n
  | .vBool true => "TRUE"
  | .vBool false => "FALSE"

/-- Result of Go fmt with the v verb on one scalar value. -/
def goVerbV : Value → String
  | .vNull => "<nil>"
  | .vStr s => s
  | .vInt n => toString n
  | .vBool true => "true"
  | .vBool false => "false"

/-- valuesEqual of internal/generator: nil handling, then comparison of
the default Go format of both values. -/
def valuesEqual (a b : Value) : Bool :=
  match a, b with
  | .vNull, .vNull => true
  | .vNull, _ => false
  | _, .vNull => false
  | _, _ => goVerbV a == goVerbV b

/-- buildWhereClause of the DML generator: AND-conjunction over every
column of the row, nulls rendered as IS NULL. -/
def DMLGenerator.buildWhereClause (g : DMLGenerator) (row : Row) : String :=
  String.intercalate " AND "
    (row.map fun p =>
      match p.2 with
      | .vNull => g.quoteIdentifier p.1 ++ " IS NULL"
      | v => g.quoteIdentifier p.1 ++ " = " ++ g.formatValue v)

/-- generateInsert of the DML generator. -/
def DMLGenerator.generateInsert (g : DMLGenerator) (tableName : String) (row : Row) : String :=
  let columns := row.map fun p => g.quoteIdentifier p.1
  let values := row.map fun p => g.formatValue p.2
  "INSERT INTO " ++ g.quoteIdentifier tableName ++ " (" ++
    String.intercalate ", " columns ++ ") VALUES (" ++
    String.intercalate ", " values ++ ");"

/-- generateDelete of the DML generator. -/
def DMLGenerator.generateDelete (g : DMLGenerator) (tableName : String) (row : Row) : String :=
  "DELETE FROM " ++ g.quoteIdentifier tableName ++ " WHERE " ++
    g.buildWhereClause row ++ ";"

/-- SET clauses of generateUpdate: one clause per column of the new row
whose value is absent from the old row or differs by valuesEqual. -/
def updateSetClauses (g : DMLGenerator) (oldRow newRow : Row) : List String :=
  newRow.filterMap fun p =>
    match lookupRow oldRow p.1 with
    | none => some (g.quoteIdentifier p.1 ++ " = " ++ g.formatValue p.2)
    | some oldVal =>
      if valuesEqual oldVal p.2 then none
      else some (g.quoteIdentifier p.1 ++ " = " ++ g.formatValue p.2)

/-- generateUpdate of the DML generator: empty string when no SET clause
survives, otherwise an UPDATE with a full-row WHERE built from the old
row. -/
def DMLGenerator.generateUpdate (g : DMLGenerator) (tableName : String)
    (oldRow newRow : Row) : String :=
  let setClauses := updateSetClauses g oldRow newRow
  if setClauses.isEmpty then ""
  else
    "UPDATE " ++ g.quoteIdentifier tableName ++ " SET " ++
      String.intercalate ", " setClauses ++ " WHERE " ++
      g.buildWhereClause oldRow ++ ";"

/-- Generate of the DML generator: deletes, then inserts, then updates,
joined by newlines. -/
def DMLGenerator.Generate (g : DMLGenerator) (dataDiff : DataDiff) : String :=
  let deletes := dataDiff.rowsDeleted.map (g.generateDelete dataDiff.tableName)
  let inserts := dataDiff.rowsAdded.map (g.generateInsert dataDiff.tableName)
  let updates := dataDiff.rowsModified.map
    (fun m => g.generateUpdate dataDiff.tableName m.oldRow m.newRow)
  String.intercalate "\n" (deletes ++ inserts ++ updates)

/-! ## internal/generator: the DDL renderer -/

/-- DDLGenerator of internal/generator. -/
structure DDLGenerator where
  dbType : String

/-- NewDDLGenerator of internal/generator. -/
def NewDDLGenerator (dbType : String) : DDLGenerator := ⟨dbType⟩

/-- quoteIdentifier of the DDL generator. -/
def DDLGenerator.quoteIdentifier (g : DDLGenerator) (name : String) : String :=
  if g.dbType == "postgres" || g.dbType == "PostgreSQL" then
    "\"" ++ name ++ "\""
  else
    "`" ++ name ++ "`"

/-- quoteIdentifiers of the DDL generator. -/
def DDLGenerator.quoteIdentifiers (g : DDLGenerator) (names : List String) : List String :=
  names.map g.quoteIdentifier

/-- columnDefinition of the DDL generator. -/
def DDLGenerator.columnDefinition (g : DDLGenerator) (col : Column) : String :=
  let d1 := g.quoteIdentifier col.name ++ " " ++ col.type
  let d2 := if !col.nullable then d1 ++ " NOT NULL" else d1
  let d3 := match col.defaultValue with
    | some dv => d2 ++ " DEFAULT " ++ dv
    | none => d2
  if col.autoIncrement then
    if g.dbType == "postgres" || g.dbType == "PostgreSQL" then d3
    else d3 ++ " AUTO_INCREMENT"
  else d3

/-- Foreign key constraint text shared by CREATE TABLE and ADD CONSTRAINT. -/
def DDLGenerator.foreignKeyDefinition (g : DDLGenerator) (fk : ForeignKey) : String :=
  let fkDef := "CONSTRAINT " ++ g.quoteIdentifier fk.name ++ " FOREIGN KEY (" ++
    g.quoteIdentifier fk.column ++ ") REFERENCES " ++
    g.quoteIdentifier fk.referencedTable ++ "(" ++
    g.quoteIdentifier fk.referencedColumn ++ ")"
  let fkDef := if fk.onDelete != "" then fkDef ++ " ON DELETE " ++ fk.onDelete else fkDef
  if fk.onUpdate != "" then fkDef ++ " ON UPDATE " ++ fk.onUpdate else fkDef

/-- generateCreateTable of the DDL generator: column definitions in
schema order, then the primary key clause from the first primary index,
then inline foreign key constraints. -/
def DDLGenerator.generateCreateTable (g : DDLGenerator) (tableSchema : TableSchema) : String :=
  let colParts := tableSchema.columns.map g.columnDefinition
  let pkParts := match tableSchema.indexes.find? (fun i => i.primary) with
    | some idx =>
      ["PRIMARY KEY (" ++ String.intercalate ", " (g.quoteIdentifiers idx.columns) ++ ")"]
    | none => []
  let fkParts := tableSchema.foreignKeys.map g.foreignKeyDefinition
  "CREATE TABLE " ++ g.quoteIdentifier tableSchema.name ++ " (\n  " ++
    String.intercalate ",\n  " (colParts ++ pkParts ++ fkParts) ++ "\n);"

/-- generateDropTable of the DDL generator. -/
def DDLGenerator.generateDropTable (g : DDLGenerator) (tableName : String) : String :=
  "DROP TABLE " ++ g.quoteIdentifier tableName ++ ";"

/-- generateAddColumn of the DDL generator. -/
def DDLGenerator.generateAddColumn (g : DDLGenerator) (tableName : String) (col : Column) : String :=
  "ALTER TABLE " ++ g.quoteIdentifier tableName ++ " ADD COLUMN " ++
    g.columnDefinition col ++ ";"

/-- generateDropColumn of the DDL generator. -/
def DDLGenerator.generateDropColumn (g : DDLGenerator) (tableName columnName : String) : String :=
  "ALTER TABLE " ++ g.quoteIdentifier tableName ++ " DROP COLUMN " ++
    g.quoteIdentifier columnName ++ ";"

/-- generateModifyColumn of the DDL generator: dialect-specific syntax. -/
def DDLGenerator.generateModifyColumn (g : DDLGenerator) (tableName : String) (col : Column) : String :=
  if g.dbType == "postgres" || g.dbType == "PostgreSQL" then
    "ALTER TABLE " ++ g.quoteIdentifier tableName ++ " ALTER COLUMN " ++
      g.quoteIdentifier col.name ++ " TYPE " ++ col.type ++ ";"
  else
    "ALTER TABLE " ++ g.quoteIdentifier tableName ++ " MODIFY COLUMN " ++
      g.columnDefinition col ++ ";"

/-- generateCreateIndex of the DDL generator. -/
def DDLGenerator.generateCreateIndex (g : DDLGenerator) (tableName : String) (idx : Index) : String :=
  let indexType := if idx.unique then "UNIQUE " else ""
  "CREATE " ++ indexType ++ "INDEX " ++ g.quoteIdentifier idx.name ++ " ON " ++
    g.quoteIdentifier tableName ++ " (" ++
    String.intercalate ", " (g.quoteIdentifiers idx.columns) ++ ");"

/-- generateDropIndex of the DDL generator: dialect-specific syntax. -/
def DDLGenerator.generateDropIndex (g : DDLGenerator) (tableName indexName : String) : String :=
  if g.dbType == "postgres" || g.dbType == "PostgreSQL" then
    "DROP INDEX " ++ g.quoteIdentifier indexName ++ ";"
  else
    "DROP INDEX " ++ g.quoteIdentifier indexName ++ " ON " ++
      g.quoteIdentifier tableName ++ ";"

/-- generateAddForeignKey of the DDL generator. -/
def DDLGenerator.generateAddForeignKey (g : DDLGenerator) (tableName : String) (fk : ForeignKey) : String :=
  let fkDef := "ALTER TABLE " ++ g.quoteIdentifier tableName ++ " ADD CONSTRAINT " ++
    g.quoteIdentifier fk.name ++ " FOREIGN KEY (" ++
    g.quoteIdentifier fk.column ++ ") REFERENCES " ++
    g.quoteIdentifier fk.referencedTable ++ "(" ++
    g.quoteIdentifier fk.referencedColumn ++ ")"
  let fkDef := if fk.onDelete != "" then fkDef ++ " ON DELETE " ++ fk.onDelete else fkDef
  let fkDef := if fk.onUpdate != "" then fkDef ++ " ON UPDATE " ++ fk.onUpdate else fkDef
  fkDef ++ ";"

/-- generateDropForeignKey of the DDL generator: dialect-specific syntax. -/
def DDLGenerator.generateDropForeignKey (g : DDLGenerator) (tableName fkName : String) : String :=
  if g.dbType == "postgres" || g.dbType == "PostgreSQL" then
    "ALTER TABLE " ++ g.quoteIdentifier tableName ++ " DROP CONSTRAINT " ++
      g.quoteIdentifier fkName ++ ";"
  else
    "ALTER TABLE " ++ g.quoteIdentifier tableName ++ " DROP FOREIGN KEY " ++
      g.quoteIdentifier fkName ++ ";"

/-- Sequential traversal in the Option monad: models a Go loop that
dereferences a pointer per element, where the first nil pointer aborts
the run (panic); never none when every element yields a value. -/
def optionMapAll (f : α → Option β) : List α → Option (List β)
  | [] => some []
  | a :: l =>
    match f a, optionMapAll f l with
    | some b, some bs => some (b :: bs)
    | _, _ => none

/-- Generate of the DDL generator.  The MODIFY branch appends, in source
order: foreign key drops (old definition), index drops skipping the
primary index (old definition), column changes, index creations skipping
the primary index (new definition), and foreign key additions (new
definition). -/
def DDLGenerator.Generate (g : DDLGenerator) (schemaDiff : SchemaDiff) : Option String :=
  match schemaDiff.action with
  | Action.add => schemaDiff.newSchema.map g.generateCreateTable
  | Action.drop => some (g.generateDropTable schemaDiff.tableName)
  | Action.modify => do
    let fkDropStmts ← optionMapAll
      (fun c => c.oldForeignKey.map
        (fun fk => g.generateDropForeignKey schemaDiff.tableName fk.name))
      (schemaDiff.foreignKeyChanges.filter
        (fun c => c.action == Action.drop || c.action == Action.modify))
    let idxDropStmts ← optionMapAll
      (fun c => c.oldIndex.map
        (fun idx =>
          if idx.primary then none
          else some (g.generateDropIndex schemaDiff.tableName idx.name)))
      (schemaDiff.indexChanges.filter
        (fun c => c.action == Action.drop || c.action == Action.modify))
    let colStmts ← optionMapAll
      (fun c =>
        match c.action with
        | Action.add => c.newColumn.map (g.generateAddColumn schemaDiff.tableName)
        | Action.drop => some (g.generateDropColumn schemaDiff.tableName c.columnName)
        | Action.modify => c.newColumn.map (g.generateModifyColumn schemaDiff.tableName))
      schemaDiff.columnChanges
    let idxAddStmts ← optionMapAll
      (fun c => c.newIndex.map
        (fun idx =>
          if idx.primary then none
          else some (g.generateCreateIndex schemaDiff.tableName idx)))
      (schemaDiff.indexChanges.filter
        (fun c => c.action == Action.add || c.action == Action.modify))
    let fkAddStmts ← optionMapAll
      (fun c => c.newForeignKey.map
        (fun fk => g.generateAddForeignKey schemaDiff.tableName fk))
      (schemaDiff.foreignKeyChanges.filter
        (fun c => c.action == Action.add || c.action == Action.modify))
    return String.intercalate "\n"
      (fkDropStmts ++ idxDropStmts.filterMap id ++ colStmts ++
       idxAddStmts.filterMap id ++ fkAddStmts)

/-- GenerateSQL of internal/generator.  The Go code ranges over the two
result maps; the enumeration order of each map is an arbitrary
permutation of its keys and is taken here as the explicit parameters
ordS and ordD. -/
def GenerateSQL (result : DiffResult) (dbType : String)
    (ordS ordD : List String) : Option String := do
  let ddlGen := NewDDLGenerator dbType
  let ddlStmts ← optionMapAll ddlGen.Generate
    (ordS.filterMap (goFind result.schemaDiffs))
  let sql1 := ddlStmts.filter (fun s => !(s == ""))
  let dmlGen := NewDMLGenerator dbType
  let dmlStmts := (ordD.filterMap (goFind result.dataDiffs)).map dmlGen.Generate
  let sql2 := dmlStmts.filter (fun s => !(s == ""))
  return String.intercalate "\n\n" (sql1 ++ sql2)

/-! ## Generic lemmas -/

theorem optionMapAll_eq_some (f : α → Option β) (l : List α)
    (h : ∀ a ∈ l, (f a).isSome) : optionMapAll f l = some (l.filterMap f) := by
  induction l with
  | nil => simp [optionMapAll]
  | cons a l ih =>
    have ha : (f a).isSome := h a (List.mem_cons_self a l)
    obtain ⟨b, hb⟩ := Option.isSome_iff_exists.mp ha
    have hl := ih (fun x hx => h x (List.mem_cons_of_mem a hx))
    simp [optionMapAll, hb, hl, List.filterMap_cons]

theorem option_map_bind_id (o : Option α) (f : α → Option β) :
    (o.map f).bind id = o.bind f := by
  cases o <;> rfl

/-! ## Statement-order description of the DDL MODIFY branch

The five statement groups of the MODIFY branch, each defined directly
from the change lists as the specification describes them. -/

/-- DROP statements for foreign keys being dropped or modified, from the
old definition. -/
def specDropForeignKeys (g : DDLGenerator) (tn : String)
    (changes : List ForeignKeyChange) : List String :=
  changes.filterMap fun c =>
    if c.action == Action.drop || c.action == Action.modify then
      c.oldForeignKey.map (fun fk => g.generateDropForeignKey tn fk.name)
    else none

/-- DROP statements for indexes being dropped or modified, from the old
definition, excluding any primary-key index. -/
def specDropIndexes (g : DDLGenerator) (tn : String)
    (changes : List IndexChange) : List String :=
  changes.filterMap fun c =>
    if c.action == Action.drop || c.action == Action.modify then
      c.oldIndex.bind
        (fun idx => if idx.primary then none else some (g.generateDropIndex tn idx.name))
    else none

/-- Column change statements: ADD, DROP or MODIFY COLUMN. -/
def specColumnStmts (g : DDLGenerator) (tn : String)
    (changes : List ColumnChange) : List String :=
  changes.filterMap fun c =>
    match c.action with
    | Action.add => c.newColumn.map (g.generateAddColumn tn)
    | Action.drop => some (g.generateDropColumn tn c.columnName)
    | Action.modify => c.newColumn.map (g.generateModifyColumn tn)

/-- CREATE INDEX statements for indexes being added or modified, from
the new definition, excluding any primary-key index. -/
def specAddIndexes (g : DDLGenerator) (tn : String)
    (changes : List IndexChange) : List String :=
  changes.filterMap fun c =>
    if c.action == Action.add || c.action == Action.modify then
      c.newIndex.bind
        (fun idx => if idx.primary then none else some (g.generateCreateIndex tn idx))
    else none

/-- ADD foreign key statements for foreign keys being added or modified,
from the new definition. -/
def specAddForeignKeys (g : DDLGenerator) (tn : String)
    (changes : List ForeignKeyChange) : List String :=
  changes.filterMap fun c =>
    if c.action == Action.add || c.action == Action.modify then
      c.newForeignKey.map (fun fk => g.generateAddForeignKey tn fk)
    else none

/-- Claim C5: for every SchemaDiff with Action MODIFY whose change
records carry the definitions the generator dereferences, renderDDL
emits exactly the five statement groups in this strict order: DROP of
dropped or modified foreign keys (old definition), DROP of dropped or
modified non-primary indexes (old definition), column changes, CREATE of
added or modified non-primary indexes (new definition), ADD of added or
modified foreign keys (new definition). -/
theorem ddl_modify_statement_order (g : DDLGenerator) (d : SchemaDiff)
    (ha : d.action = Action.modify)
    (h1 : ∀ c ∈ d.foreignKeyChanges,
      (c.action == Action.drop || c.action == Action.modify) = true →
        c.oldForeignKey.isSome = true)
    (h2 : ∀ c ∈ d.indexChanges,
      (c.action == Action.drop || c.action == Action.modify) = true →
        c.oldIndex.isSome = true)
    (h3 : ∀ c ∈ d.columnChanges, c.action ≠ Action.drop → c.newColumn.isSome = true)
    (h4 : ∀ c ∈ d.indexChanges,
      (c.action == Action.add || c.action == Action.modify) = true →
        c.newIndex.isSome = true)
    (h5 : ∀ c ∈ d.foreignKeyChanges,
      (c.action == Action.add || c.action == Action.modify) = true →
        c.newForeignKey.isSome = true) :
    g.Generate d = some (String.intercalate "\n"
      (specDropForeignKeys g d.tableName d.foreignKeyChanges ++
       specDropIndexes g d.tableName d.indexChanges ++
       specColumnStmts g d.tableName d.columnChanges ++
       specAddIndexes g d.tableName d.indexChanges ++
       specAddForeignKeys g d.tableName d.foreignKeyChanges)) := by
  have e1 : optionMapAll
      (fun c => c.oldForeignKey.map
        (fun fk => g.generateDropForeignKey d.tableName fk.name))
      (d.foreignKeyChanges.filter
        (fun c => c.action == Action.drop || c.action == Action.modify)) =
      some ((d.foreignKeyChanges.filter
        (fun c => c.action == Action.drop || c.action == Action.modify)).filterMap
        (fun c => c.oldForeignKey.map
          (fun fk => g.generateDropForeignKey d.tableName fk.name))) := by
    apply optionMapAll_eq_some
    intro c hc
    rw [List.mem_filter] at hc
    have := h1 c hc.1 hc.2
    cases h : c.oldForeignKey with
    | none => rw [h] at this; simp at this
    | some fk => simp [h]
  have e2 : optionMapAll
      (fun c => c.oldIndex.map
        (fun idx =>
          if idx.primary then none
          else some (g.generateDropIndex d.tableName idx.name)))
      (d.indexChanges.filter
        (fun c => c.action == Action.drop || c.action == Action.modify)) =
      some ((d.indexChanges.filter
        (fun c => c.action == Action.drop || c.action == Action.modify)).filterMap
        (fun c => c.oldIndex.map
          (fun idx =>
            if idx.primary then none
            else some (g.generateDropIndex d.tableName idx.name)))) := by
    apply optionMapAll_eq_some
    intro c hc
    rw [List.mem_filter] at hc
    have := h2 c hc.1 hc.2
    cases h : c.oldIndex with
    | none => rw [h] at this; simp at this
    | some idx => simp [h]
  have e3 : optionMapAll
      (fun c =>
        match c.action with
        | Action.add => c.newColumn.map (g.generateAddColumn d.tableName)
        | Action.drop => some (g.generateDropColumn d.tableName c.columnName)
        | Action.modify => c.newColumn.map (g.generateModifyColumn d.tableName))
      d.columnChanges =
      some (d.columnChanges.filterMap
        (fun c =>
          match c.action with
          | Action.add => c.newColumn.map (g.generateAddColumn d.tableName)
          | Action.drop => some (g.generateDropColumn d.tableName c.columnName)
          | Action.modify => c.newColumn.map (g.generateModifyColumn d.tableName))) := by
    apply optionMapAll_eq_some
    intro c hc
    cases hact : c.action with
    | add =>
      have := h3 c hc (by rw [hact]; intro hh; cases hh)
      cases h : c.newColumn with
      | none => rw [h] at this; simp at this
      | some col => simp [h]
    | drop => simp
    | modify =>
      have := h3 c hc (by rw [hact]; intro hh; cases hh)
      cases h : c.newColumn with
      | none => rw [h] at this; simp at this
      | some col => simp [h]
  have e4 : optionMapAll
      (fun c => c.newIndex.map
        (fun idx =>
          if idx.primary then none
          else some (g.generateCreateIndex d.tableName idx)))
      (d.indexChanges.filter
        (fun c => c.action == Action.add || c.action == Action.modify)) =
      some ((d.indexChanges.filter
        (fun c => c.action == Action.add || c.action == Action.modify)).filterMap
        (fun c => c.newIndex.map
          (fun idx =>
            if idx.primary then none
            else some (g.generateCreateIndex d.tableName idx)))) := by
    apply optionMapAll_eq_some
    intro c hc
    rw [List.mem_filter] at hc
    have := h4 c hc.1 hc.2
    cases h : c.newIndex with
    | none => rw [h] at this; simp at this
    | some idx => simp [h]
  have e5 : optionMapAll
      (fun c => c.newForeignKey.map
        (fun fk => g.generateAddForeignKey d.tableName fk))
      (d.foreignKeyChanges.filter
        (fun c => c.action == Action.add || c.action == Action.modify)) =
      some ((d.foreignKeyChanges.filter
        (fun c => c.action == Action.add || c.action == Action.modify)).filterMap
        (fun c => c.newForeignKey.map
          (fun fk => g.generateAddForeignKey d.tableName fk))) := by
    apply optionMapAll_eq_some
    intro c hc
    rw [List.mem_filter] at hc
    have := h5 c hc.1 hc.2
    cases h : c.newForeignKey with
    | none => rw [h] at this; simp at this
    | some fk => simp [h]
  simp only [DDLGenerator.Generate, ha, e1, e2, e3, e4, e5, Option.bind_eq_bind,
    Option.some_bind]
  congr 1
  have s1 : (d.foreignKeyChanges.filter
      (fun c => c.action == Action.drop || c.action == Action.modify)).filterMap
      (fun c => c.oldForeignKey.map
        (fun fk => g.generateDropForeignKey d.tableName fk.name)) =
      specDropForeignKeys g d.tableName d.foreignKeyChanges := by
    rw [List.filterMap_filter]
    rfl
  have s2 : ((d.indexChanges.filter
      (fun c => c.action == Action.drop || c.action == Action.modify)).filterMap
      (fun c => c.oldIndex.map
        (fun idx =>
          if idx.primary then none
          else some (g.generateDropIndex d.tableName idx.name)))).filterMap id =
      specDropIndexes g d.tableName d.indexChanges := by
    rw [List.filterMap_filterMap, List.filterMap_filter]
    unfold specDropIndexes
    congr 1
    funext c
    by_cases hp : (c.action == Action.drop || c.action == Action.modify) = true
    · simp only [hp, if_true, option_map_bind_id]
    · simp [hp]
  have s4 : ((d.indexChanges.filter
      (fun c => c.action == Action.add || c.action == Action.modify)).filterMap
      (fun c => c.newIndex.map
        (fun idx =>
          if idx.primary then none
          else some (g.generateCreateIndex d.tableName idx)))).filterMap id =
      specAddIndexes g d.tableName d.indexChanges := by
    rw [List.filterMap_filterMap, List.filterMap_filter]
    unfold specAddIndexes
    congr 1
    funext c
    by_cases hp : (c.action == Action.add || c.action == Action.modify) = true
    · simp only [hp, if_true, option_map_bind_id]
    · simp [hp]
  have s5 : (d.foreignKeyChanges.filter
      (fun c => c.action == Action.add || c.action == Action.modify)).filterMap
      (fun c => c.newForeignKey.map
        (fun fk => g.generateAddForeignKey d.tableName fk)) =
      specAddForeignKeys g d.tableName d.foreignKeyChanges := by
    rw [List.filterMap_filter]
    rfl
  rw [s1, s2, s4, s5]
  rfl

/-- Concrete MySQL DDL generator used by witnesses. -/
def gMysqlDDL : DDLGenerator := NewDDLGenerator "mysql"

/-- Concrete MODIFY diff exercising all five statement groups. -/
def modifyDiffEx : SchemaDiff :=
  ⟨"t", Action.modify, none, none,
   [⟨"c1", Action.add, none, some ⟨"c1", "INT", true, none, false, 1⟩⟩],
   [⟨"i1", Action.drop, some ⟨"i1", ["x"], false, false, "BTREE"⟩, none⟩,
    ⟨"i2", Action.add, none, some ⟨"i2", ["y"], true, false, "BTREE"⟩⟩],
   [⟨"f1", Action.drop, some ⟨"f1", "x", "r", "id", "", ""⟩, none⟩,
    ⟨"f2", Action.add, none, some ⟨"f2", "y", "r", "id", "CASCADE", ""⟩⟩]⟩

/-- Witness for claim C5 at a concrete MODIFY diff. -/
theorem ddl_modify_statement_order_witness :
    gMysqlDDL.Generate modifyDiffEx = some (String.intercalate "\n"
      (specDropForeignKeys gMysqlDDL modifyDiffEx.tableName modifyDiffEx.foreignKeyChanges ++
       specDropIndexes gMysqlDDL modifyDiffEx.tableName modifyDiffEx.indexChanges ++
       specColumnStmts gMysqlDDL modifyDiffEx.tableName modifyDiffEx.columnChanges ++
       specAddIndexes gMysqlDDL modifyDiffEx.tableName modifyDiffEx.indexChanges ++
       specAddForeignKeys gMysqlDDL modifyDiffEx.tableName modifyDiffEx.foreignKeyChanges)) :=
  ddl_modify_statement_order gMysqlDDL modifyDiffEx rfl
    (by decide) (by decide) (by decide) (by decide) (by decide)

/-! ## The DML UPDATE SET clause (claim C6) -/

/-- Columns of the new row whose value differs from the old row, by the
DML renderer own equality (valuesEqual, Go default formatting); a column
absent from the old row counts as differing. -/
def changedColumns (oldRow newRow : Row) : List (String × Value) :=
  newRow.filter fun p =>
    match lookupRow oldRow p.1 with
    | some oldVal => !valuesEqual oldVal p.2
    | none => true

theorem filterMap_ite_eq_filter_map (p : α → Bool) (f : α → β) (l : List α) :
    l.filterMap (fun a => if p a then some (f a) else none) = (l.filter p).map f := by
  induction l with
  | nil => rfl
  | cons a l ih =>
    by_cases h : p a <;> simp [List.filterMap_cons, List.filter_cons, h, ih]

theorem string_append_ne_empty (s t : String) (h : s ≠ "") : s ++ t ≠ "" := by
  intro hh
  apply h
  have hd := congrArg String.data hh
  rw [String.data_append] at hd
  have hs : s.data = [] := by
    cases he : s.data with
    | nil => rfl
    | cons c cs => rw [he] at hd; simp at hd
  exact String.ext hs

/-- Claim C6 counterexample: the pair old = (a, integer 1),
new = (a, string "1") is reported MODIFIED by the comparator (rowsEqual
is false and column a differs under the JSON equality), yet the renderer
emits no UPDATE statement for it, because its own equality valuesEqual
treats the two values as equal. -/
theorem dml_update_uses_comparator_equality_counterexample :
    rowsEqual [("a", Value.vInt 1)] [("a", Value.vStr "1")] = false ∧
    jsonMarshal (Value.vInt 1) ≠ jsonMarshal (Value.vStr "1") ∧
    valuesEqual (Value.vInt 1) (Value.vStr "1") = true ∧
    (NewDMLGenerator "mysql").generateUpdate "t"
      [("a", Value.vInt 1)] [("a", Value.vStr "1")] = "" := by
  refine ⟨by decide, by decide, by decide, ?_⟩
  rfl

/-- Claim C6 as amended: the UPDATE SET clause includes exactly the
columns whose new value differs from the old value under the DML
renderer own formatting-based equality (valuesEqual) — which can
disagree with the comparator JSON-based equality — and the renderer
emits no statement for the row exactly when no column differs under
valuesEqual. -/
theorem dml_update_set_clause (g : DMLGenerator) (t : String) (oldRow newRow : Row) :
    updateSetClauses g oldRow newRow =
      (changedColumns oldRow newRow).map
        (fun p => g.quoteIdentifier p.1 ++ " = " ++ g.formatValue p.2) ∧
    (g.generateUpdate t oldRow newRow = "" ↔ changedColumns oldRow newRow = []) := by
  have part1 : updateSetClauses g oldRow newRow =
      (changedColumns oldRow newRow).map
        (fun p => g.quoteIdentifier p.1 ++ " = " ++ g.formatValue p.2) := by
    unfold updateSetClauses changedColumns
    rw [← filterMap_ite_eq_filter_map]
    congr 1
    funext p
    cases h : lookupRow oldRow p.1 with
    | none => simp
    | some oldVal =>
      cases hv : valuesEqual oldVal p.2 <;> simp [hv]
  refine ⟨part1, ?_⟩
  unfold DMLGenerator.generateUpdate
  rw [part1]
  by_cases h : changedColumns oldRow newRow = []
  · simp [h]
  · have hne : ¬((changedColumns oldRow newRow).map
        (fun p => g.quoteIdentifier p.1 ++ " = " ++ g.formatValue p.2)).isEmpty = true := by
      cases hc : changedColumns oldRow newRow with
      | nil => exact absurd hc h
      | cons a l => simp [hc]
    simp only [hne, if_neg, Bool.not_eq_true]
    constructor
    · intro hh
      exact absurd hh (by
        apply string_append_ne_empty
        apply string_append_ne_empty
        apply string_append_ne_empty
        apply string_append_ne_empty
        apply string_append_ne_empty
        apply string_append_ne_empty
        decide)
    · intro hh
      exact absurd hh h

/-- Witness for the amended claim C6 at concrete rows. -/
theorem dml_update_set_clause_witness :
    updateSetClauses (NewDMLGenerator "mysql") [("a", Value.vInt 1)] [("a", Value.vInt 2)] =
      (changedColumns [("a", Value.vInt 1)] [("a", Value.vInt 2)]).map
        (fun p => (NewDMLGenerator "mysql").quoteIdentifier p.1 ++ " = " ++
          (NewDMLGenerator "mysql").formatValue p.2) ∧
    ((NewDMLGenerator "mysql").generateUpdate "t"
        [("a", Value.vInt 1)] [("a", Value.vInt 2)] = "" ↔
      changedColumns [("a", Value.vInt 1)] [("a", Value.vInt 2)] = []) :=
  dml_update_set_clause (NewDMLGenerator "mysql") "t"
    [("a", Value.vInt 1)] [("a", Value.vInt 2)]

/-! ## Row equality is JSON-representation equality (claim C4) -/

/-- Table schema with primary key on the id column, used in examples. -/
def pkSchemaEx : TableSchema :=
  ⟨"t", [⟨"id", "INT", false, none, false, 1⟩, ⟨"c", "INT", true, none, false, 2⟩],
   [⟨"PRIMARY", ["id"], true, true, "BTREE"⟩], []⟩

/-- Claim C4 counterexample: an integer and its decimal string form have
different JSON encodings, so a row pair differing only in that one
column is reported MODIFIED by compareData. -/
theorem rows_equal_canonical_counterexample :
    compareData "t" [[("id", Value.vInt 1), ("c", Value.vInt 1)]]
      [[("id", Value.vInt 1), ("c", Value.vStr "1")]] pkSchemaEx =
      some ⟨"t", [], [],
        [⟨[("id", Value.vInt 1), ("c", Value.vInt 1)],
          [("id", Value.vInt 1), ("c", Value.vStr "1")]⟩]⟩ := by
  decide

/-- Claim C4 as amended: rowsEqual compares values by their JSON-encoded
representation, not by canonical logical value: two rows are equal
exactly when they have the same number of columns and every column of
the first maps in the second to a value with the identical JSON
encoding; in particular an integer and its decimal string form compare
unequal, so such a pair alone makes the row pair MODIFIED. -/
theorem rows_equal_is_json_equality :
    (∀ a b : Row, rowsEqual a b = true ↔
      ((a : List (String × Value)).length = (b : List (String × Value)).length ∧
       ∀ p ∈ (a : List (String × Value)), ∃ v, lookupRow b p.1 = some v ∧
         jsonMarshal p.2 = jsonMarshal v)) ∧
    rowsEqual [("c", Value.vInt 2)] [("c", Value.vStr "2")] = false := by
  constructor
  · intro a b
    unfold rowsEqual
    simp only [Bool.and_eq_true, beq_iff_eq, List.all_eq_true]
    refine and_congr Iff.rfl (forall_congr' fun p => forall_congr' fun hp => ?_)
    cases h : lookupRow b p.1 <;> simp [h]
  · decide

/-- Witness for the amended claim C4 at concrete rows. -/
theorem rows_equal_is_json_equality_witness :
    rowsEqual [("x", Value.vInt 5)] [("x", Value.vInt 5)] = true ∧
    rowsEqual [("c", Value.vInt 2)] [("c", Value.vStr "2")] = false :=
  ⟨(rows_equal_is_json_equality.1 [("x", Value.vInt 5)] [("x", Value.vInt 5)]).mpr
      ⟨rfl, by decide⟩,
   rows_equal_is_json_equality.2⟩

/-! ## Lookup characterization of Compare -/

theorem goFind_filterMap_keyed_none (l : List (String × α)) (g : String → α → Option β)
    (k : String) (hk : k ∉ goKeys l) :
    goFind (l.filterMap fun p => (g p.1 p.2).map (fun d => (p.1, d))) k = none := by
  induction l with
  | nil => simp [goFind]
  | cons p l ih =>
    simp only [goKeys, List.map_cons, List.mem_cons] at hk
    push_neg at hk
    have hpk : ¬(p.1 == k) = true := by
      simp only [beq_iff_eq]
      exact fun hh => hk.1 hh.symm
    cases hg : g p.1 p.2 with
    | none =>
      simp only [List.filterMap_cons, hg, Option.map_none, Option.map_none']
      exact ih (by simpa [goKeys] using hk.2)
    | some d =>
      simp only [List.filterMap_cons, hg, Option.map_some, Option.map_some']
      have := ih (by simpa [goKeys] using hk.2)
      simpa [goFind, List.find?_cons, hpk] using this

theorem goFind_filterMap_keyed (l : List (String × α)) (g : String → α → Option β)
    (hnd : (goKeys l).Nodup) (k : String) :
    goFind (l.filterMap fun p => (g p.1 p.2).map (fun d => (p.1, d))) k =
      (goFind l k).bind (fun v => g k v) := by
  induction l with
  | nil => simp [goFind]
  | cons p l ih =>
    simp only [goKeys, List.map_cons, List.nodup_cons] at hnd
    by_cases hp : (p.1 == k) = true
    · have hpk : p.1 = k := beq_iff_eq.mp hp
      cases hg : g p.1 p.2 with
      | none =>
        simp only [List.filterMap_cons, hg, Option.map_none, Option.map_none']
        have hfind : goFind (p :: l) k = some p.2 := by
          simp [goFind, List.find?_cons, hp]
        rw [hfind]
        simp only [Option.some_bind]
        rw [goFind_filterMap_keyed_none l g k (by rw [← hpk]; simpa [goKeys] using hnd.1)]
        rw [← hpk, hg]
      | some d =>
        simp only [List.filterMap_cons, hg, Option.map_some, Option.map_some']
        have hfind : goFind (p :: l) k = some p.2 := by
          simp [goFind, List.find?_cons, hp]
        rw [hfind]
        simp only [Option.some_bind]
        have : goFind ((p.1, d) :: l.filterMap fun q => (g q.1 q.2).map (fun e => (q.1, e))) k =
            some d := by
          simp [goFind, List.find?_cons, hp]
        rw [this, ← hpk, hg]
    · have h1 : goFind (p :: l) k = goFind l k := by
        simp [goFind, List.find?_cons, hp]
      cases hg : g p.1 p.2 with
      | none =>
        simp only [List.filterMap_cons, hg, Option.map_none, Option.map_none']
        rw [ih hnd.2, h1]
      | some d =>
        simp only [List.filterMap_cons, hg, Option.map_some, Option.map_some']
        have h2 : goFind ((p.1, d) :: l.filterMap fun q => (g q.1 q.2).map (fun e => (q.1, e))) k =
            goFind (l.filterMap fun q => (g q.1 q.2).map (fun e => (q.1, e))) k := by
          simp [goFind, List.find?_cons, hp]
        rw [h2, ih hnd.2, h1]

theorem reverse_find_isSome (m : List (String × α)) (k : String) :
    (m.reverse.find? (fun p => p.1 == k)).isSome = (m.find? (fun p => p.1 == k)).isSome := by
  rw [Bool.eq_iff_iff]
  simp only [List.find?_isSome, List.mem_reverse]

/-- Lookup in the table-name union map of Compare. -/
theorem compareTableNames_find (t1m t2m : List (String × Table)) (name : String) :
    goFind (compareTableNames t1m t2m) name =
      if (goFind t1m name).isSome || (goFind t2m name).isSome then some true else none := by
  unfold compareTableNames
  rw [goFind_goMapOf]
  unfold lookupLast
  rw [List.reverse_append, List.find?_append]
  have hmap : ∀ m : List (String × Table),
      ((m.map (fun p => (p.1, true))).reverse.find? (fun q => q.1 == name)) =
        (m.reverse.find? (fun p => p.1 == name)).map (fun p => (p.1, true)) := by
    intro m
    rw [← List.map_reverse, List.find?_map]
    rfl
  rw [hmap, hmap]
  have h1 := reverse_find_isSome t1m name
  have h2 := reverse_find_isSome t2m name
  unfold goFind
  cases hf2 : t2m.reverse.find? (fun p => p.1 == name) with
  | some q =>
    have : (t2m.find? (fun p => p.1 == name)).isSome = true := by
      rw [← h2, hf2]; rfl
    obtain ⟨r, hr⟩ := Option.isSome_iff_exists.mp this
    simp [hf2, hr]
  | none =>
    have hnone2 : t2m.find? (fun p => p.1 == name) = none := by
      have : (t2m.find? (fun p => p.1 == name)).isSome = false := by
        rw [← h2, hf2]; rfl
      exact Option.not_isSome_iff_eq_none.mp (by simp [this])
    cases hf1 : t1m.reverse.find? (fun p => p.1 == name) with
    | some q =>
      have : (t1m.find? (fun p => p.1 == name)).isSome = true := by
        rw [← h1, hf1]; rfl
      obtain ⟨r, hr⟩ := Option.isSome_iff_exists.mp this
      simp [hf2, hf1, hr, hnone2]
    | none =>
      have hnone1 : t1m.find? (fun p => p.1 == name) = none := by
        have : (t1m.find? (fun p => p.1 == name)).isSome = false := by
          rw [← h1, hf1]; rfl
        exact Option.not_isSome_iff_eq_none.mp (by simp [this])
      simp [hf2, hf1, hnone1, hnone2]

/-- Lookup in the schema diff map produced by Compare. -/
theorem compare_schemaDiffs_find (snap1 snap2 : Snapshot) (name : String) :
    goFind (Compare snap1 snap2).schemaDiffs name =
      (goFind (compareTableNames (goMapOf snap1.tables) (goMapOf snap2.tables)) name).bind
        (fun _ => compareSchemaEntry (goMapOf snap1.tables) (goMapOf snap2.tables) name) := by
  unfold Compare
  exact goFind_filterMap_keyed
    (compareTableNames (goMapOf snap1.tables) (goMapOf snap2.tables))
    (fun k _ => compareSchemaEntry (goMapOf snap1.tables) (goMapOf snap2.tables) k)
    (nodup_goKeys_goMapOf _) name

/-- Lookup in the data diff map produced by Compare. -/
theorem compare_dataDiffs_find (snap1 snap2 : Snapshot) (name : String) :
    goFind (Compare snap1 snap2).dataDiffs name =
      (goFind (compareTableNames (goMapOf snap1.tables) (goMapOf snap2.tables)) name).bind
        (fun _ => compareDataEntry (goMapOf snap1.tables) (goMapOf snap2.tables) name) := by
  unfold Compare
  exact goFind_filterMap_keyed
    (compareTableNames (goMapOf snap1.tables) (goMapOf snap2.tables))
    (fun k _ => compareDataEntry (goMapOf snap1.tables) (goMapOf snap2.tables) k)
    (nodup_goKeys_goMapOf _) name

/-! ## Self comparison -/

theorem columnsEqual_refl (c : Column) : columnsEqual c c = true := by
  unfold columnsEqual
  cases c.defaultValue <;> simp

theorem indexesEqual_refl (i : Index) : indexesEqual i i = true := by
  simp [indexesEqual]

theorem foreignKeysEqual_refl (f : ForeignKey) : foreignKeysEqual f f = true := by
  simp [foreignKeysEqual]

/-- A row whose column names are distinct (as in a Go map) compares
equal to itself. -/
theorem rowsEqual_refl (r : Row) (h : (goKeys (r : List (String × Value))).Nodup) :
    rowsEqual r r = true := by
  unfold rowsEqual
  rw [Bool.and_eq_true]
  refine ⟨by simp, ?_⟩
  rw [List.all_eq_true]
  intro p hp
  have : lookupRow r p.1 = some p.2 := goFind_of_mem_nodup r p.1 p.2 h (by simpa using hp)
  simp [this]

/-- Reconciling a name-keyed map with itself yields no change records,
provided the equality predicate is reflexive on its values. -/
theorem diffNamed_self (m : List (String × α)) (eqFn : α → α → Bool)
    (mk : String → Action → Option α → Option α → β)
    (hnd : (goKeys m).Nodup) (hrefl : ∀ p ∈ m, eqFn p.2 p.2 = true) :
    diffNamed m m eqFn mk = [] := by
  unfold diffNamed
  rw [List.append_eq_nil]
  constructor
  · rw [List.filterMap_eq_nil_iff]
    intro p hp
    have hfind : goFind m p.1 = some p.2 := goFind_of_mem_nodup m p.1 p.2 hnd (by simpa using hp)
    simp [hfind, hrefl p hp]
  · rw [List.filterMap_eq_nil_iff]
    intro p hp
    have hfind : goFind m p.1 = some p.2 := goFind_of_mem_nodup m p.1 p.2 hnd (by simpa using hp)
    simp [hfind]

/-- compareSchemas of a schema with itself reports no difference. -/
theorem compareSchemas_self (sch : TableSchema) : compareSchemas sch sch = none := by
  have h1 := diffNamed_self (goMapOf (sch.columns.map fun c => (c.name, c))) columnsEqual
    (fun n a o nw => ({ columnName := n, action := a, oldColumn := o, newColumn := nw } :
      ColumnChange))
    (nodup_goKeys_goMapOf _) (fun p _ => columnsEqual_refl p.2)
  have h2 := diffNamed_self (goMapOf (sch.indexes.map fun i => (i.name, i))) indexesEqual
    (fun n a o nw => ({ indexName := n, action := a, oldIndex := o, newIndex := nw } :
      IndexChange))
    (nodup_goKeys_goMapOf _) (fun p _ => indexesEqual_refl p.2)
  have h3 := diffNamed_self (goMapOf (sch.foreignKeys.map fun f => (f.name, f))) foreignKeysEqual
    (fun n a o nw => ({ fkName := n, action := a, oldForeignKey := o, newForeignKey := nw } :
      ForeignKeyChange))
    (nodup_goKeys_goMapOf _) (fun p _ => foreignKeysEqual_refl p.2)
  simp only [compareSchemas, h1, h2, h3]
  rfl

/-- compareData of a row list with itself: none in the primary-key path,
an all-empty diff in the no-primary-key path. -/
theorem compareData_self (tn : String) (data : List Row) (sch : TableSchema)
    (hrows : ∀ r ∈ data, (goKeys (r : List (String × Value))).Nodup) :
    compareData tn data data sch =
      if (getPrimaryKeyColumns sch).isEmpty then
        some ⟨tn, [], [], []⟩
      else none := by
  have hnd : (goKeys (rowMapOf data (getPrimaryKeyColumns sch))).Nodup :=
    nodup_goKeys_goMapOf _
  have hmemrow : ∀ p ∈ rowMapOf data (getPrimaryKeyColumns sch), p.2 ∈ data := by
    intro p hp
    have hmem := mem_goMapOf _ p hp
    rw [List.mem_map] at hmem
    obtain ⟨r, hr, hrp⟩ := hmem
    subst hrp
    exact hr
  have hadd : rowsAddedOf (rowMapOf data (getPrimaryKeyColumns sch))
      (rowMapOf data (getPrimaryKeyColumns sch)) = [] := by
    rw [rowsAddedOf, List.filterMap_eq_nil_iff]
    intro p hp
    have hfind : goFind (rowMapOf data (getPrimaryKeyColumns sch)) p.1 = some p.2 :=
      goFind_of_mem_nodup _ p.1 p.2 hnd (by simpa using hp)
    simp [hfind]
  have hmod : rowsModifiedOf (rowMapOf data (getPrimaryKeyColumns sch))
      (rowMapOf data (getPrimaryKeyColumns sch)) = [] := by
    rw [rowsModifiedOf, List.filterMap_eq_nil_iff]
    intro p hp
    have hfind : goFind (rowMapOf data (getPrimaryKeyColumns sch)) p.1 = some p.2 :=
      goFind_of_mem_nodup _ p.1 p.2 hnd (by simpa using hp)
    simp [hfind, rowsEqual_refl p.2 (hrows p.2 (hmemrow p hp))]
  have hdel : rowsDeletedOf (rowMapOf data (getPrimaryKeyColumns sch))
      (rowMapOf data (getPrimaryKeyColumns sch)) = [] := by
    rw [rowsDeletedOf, List.filterMap_eq_nil_iff]
    intro p hp
    have hfind : goFind (rowMapOf data (getPrimaryKeyColumns sch)) p.1 = some p.2 :=
      goFind_of_mem_nodup _ p.1 p.2 hnd (by simpa using hp)
    simp [hfind]
  by_cases hpk : (getPrimaryKeyColumns sch).isEmpty
  · simp [compareData, hpk]
  · simp only [compareData, if_neg hpk, hadd, hmod, hdel]
    rfl

/-! ## Claim C1: compare of a snapshot with itself -/

/-- Snapshot with one table that has no primary index. -/
def noPkSnapshotEx : Snapshot :=
  ⟨[], [("t", ⟨⟨"t", [⟨"a", "INT", true, none, false, 1⟩], [], []⟩, []⟩)]⟩

/-- Claim C1 counterexample: for a snapshot whose table has no primary
index, compare of the snapshot with itself leaves a DataDiffs entry (the
no-primary-key branch of compareData returns its initial diff value
instead of none), so the DataDiffs map is not empty. -/
theorem compare_self_counterexample :
    (Compare noPkSnapshotEx noPkSnapshotEx).dataDiffs = [("t", ⟨"t", [], [], []⟩)] ∧
    (Compare noPkSnapshotEx noPkSnapshotEx).dataDiffs ≠ [] := by
  constructor
  · decide
  · decide

/-- Claim C1 as amended: for every snapshot S whose row maps have
distinct column keys, compare(S, S) yields an empty SchemaDiffs map;
every DataDiffs entry carries all-empty added, deleted and modified
lists; and if additionally every table of S has a primary index, the
DataDiffs map is empty as well (tables without a primary index
contribute an entry holding the empty diff). -/
theorem compare_self (S : Snapshot)
    (hrows : ∀ p ∈ S.tables, ∀ r ∈ p.2.data, (goKeys (r : List (String × Value))).Nodup) :
    (Compare S S).schemaDiffs = [] ∧
    (∀ e ∈ (Compare S S).dataDiffs,
      e.2.rowsAdded = [] ∧ e.2.rowsDeleted = [] ∧ e.2.rowsModified = []) ∧
    ((∀ p ∈ S.tables, ¬(getPrimaryKeyColumns p.2.schema).isEmpty = true) →
      (Compare S S).dataDiffs = []) := by
  have htb : ∀ k tb, goFind (goMapOf S.tables) k = some tb → ∃ q ∈ S.tables, q.2 = tb := by
    intro k tb h
    unfold goFind at h
    rw [Option.map_eq_some'] at h
    obtain ⟨q, hq, hq2⟩ := h
    exact ⟨q, mem_goMapOf _ q (List.mem_of_find?_eq_some hq), hq2⟩
  have hschementry : ∀ k, compareSchemaEntry (goMapOf S.tables) (goMapOf S.tables) k = none := by
    intro k
    unfold compareSchemaEntry
    cases h : goFind (goMapOf S.tables) k with
    | none => rfl
    | some tb => simp [compareSchemas_self]
  have hdataentry : ∀ k dd,
      compareDataEntry (goMapOf S.tables) (goMapOf S.tables) k = some dd →
      dd.rowsAdded = [] ∧ dd.rowsDeleted = [] ∧ dd.rowsModified = [] := by
    intro k dd h
    unfold compareDataEntry at h
    cases hf : goFind (goMapOf S.tables) k with
    | none => rw [hf] at h; cases h
    | some tb =>
      rw [hf] at h
      obtain ⟨q, hqmem, hq2⟩ := htb k tb hf
      have hrowsnd : ∀ r ∈ tb.data, (goKeys (r : List (String × Value))).Nodup := by
        rw [← hq2]
        exact hrows q hqmem
      have h' : compareData k tb.data tb.data tb.schema = some dd := h
      clear h
      rw [compareData_self k tb.data tb.schema hrowsnd] at h'
      by_cases hpk : (getPrimaryKeyColumns tb.schema).isEmpty
      · rw [if_pos hpk] at h'
        cases h'
        exact ⟨rfl, rfl, rfl⟩
      · rw [if_neg hpk] at h'
        cases h'
  refine ⟨?_, ?_, ?_⟩
  · show (List.filterMap _ _) = []
    rw [List.filterMap_eq_nil_iff]
    intro p hp
    rw [hschementry p.1]
    rfl
  · intro e he
    have he' : e ∈ List.filterMap
        (fun p => (compareDataEntry (goMapOf S.tables) (goMapOf S.tables) p.1).map
          (fun d => (p.1, d)))
        (compareTableNames (goMapOf S.tables) (goMapOf S.tables)) := he
    rw [List.mem_filterMap] at he'
    obtain ⟨p, hp, hpe⟩ := he'
    rw [Option.map_eq_some'] at hpe
    obtain ⟨dd, hdd, hdde⟩ := hpe
    have := hdataentry p.1 dd hdd
    rw [← hdde]
    exact this
  · intro hpkAll
    show (List.filterMap _ _) = []
    rw [List.filterMap_eq_nil_iff]
    intro p hp
    have : compareDataEntry (goMapOf S.tables) (goMapOf S.tables) p.1 = none := by
      unfold compareDataEntry
      cases hf : goFind (goMapOf S.tables) p.1 with
      | none => rfl
      | some tb =>
        obtain ⟨q, hqmem, hq2⟩ := htb p.1 tb hf
        have hrowsnd : ∀ r ∈ tb.data, (goKeys (r : List (String × Value))).Nodup := by
          rw [← hq2]
          exact hrows q hqmem
        have hpk : ¬(getPrimaryKeyColumns tb.schema).isEmpty = true := by
          rw [← hq2]
          exact hpkAll q hqmem
        show compareData p.1 tb.data tb.data tb.schema = none
        rw [compareData_self p.1 tb.data tb.schema hrowsnd, if_neg hpk]
    rw [this]
    rfl

/-- Table keyed by a primary index, used by witnesses. -/
def pkTableEx : Table := ⟨pkSchemaEx, [[("id", Value.vInt 1), ("c", Value.vInt 2)]]⟩

/-- Snapshot with one table keyed by a primary index, used by witnesses. -/
def pkSnapshotEx : Snapshot := ⟨[], [("t", pkTableEx)]⟩

/-- Witness for claim C1 at a concrete primary-keyed snapshot. -/
theorem compare_self_witness :
    (Compare pkSnapshotEx pkSnapshotEx).schemaDiffs = [] ∧
    (Compare pkSnapshotEx pkSnapshotEx).dataDiffs = [] :=
  ⟨(compare_self pkSnapshotEx (by decide)).1,
   (compare_self pkSnapshotEx (by decide)).2.2 (by decide)⟩

/-! ## Claim C2: the no-primary-key fallback of compareData -/

/-- Table schema without any primary index. -/
def noPkSchemaEx : TableSchema := ⟨"t", [⟨"a", "INT", true, none, false, 1⟩], [], []⟩

/-- Claim C2 counterexample: with no primary index and equal row counts
but differing content, compareData returns a DataDiff value with all
three lists empty — not none as claimed. -/
theorem compareData_nopk_counterexample :
    compareData "t" [[("a", Value.vInt 1)]] [[("a", Value.vInt 2)]] noPkSchemaEx =
      some ⟨"t", [], [], []⟩ ∧
    compareData "t" [[("a", Value.vInt 1)]] [[("a", Value.vInt 2)]] noPkSchemaEx ≠ none := by
  constructor
  · decide
  · decide

/-- Claim C2 as amended: with no primary index, differing row counts
make compareData report the entire old set deleted and the entire new
set added; equal counts make it return a non-none DataDiff whose three
change lists are all empty (not none).  In the primary-key path it
returns none exactly when all three change lists are empty. -/
theorem compareData_none_policy (tn : String) (oldData newData : List Row)
    (sch : TableSchema) :
    (getPrimaryKeyColumns sch = [] → oldData.length ≠ newData.length →
      compareData tn oldData newData sch = some ⟨tn, newData, oldData, []⟩) ∧
    (getPrimaryKeyColumns sch = [] → oldData.length = newData.length →
      compareData tn oldData newData sch = some ⟨tn, [], [], []⟩) ∧
    (getPrimaryKeyColumns sch ≠ [] →
      (compareData tn oldData newData sch = none ↔
        rowsAddedOf (rowMapOf oldData (getPrimaryKeyColumns sch))
          (rowMapOf newData (getPrimaryKeyColumns sch)) = [] ∧
        rowsDeletedOf (rowMapOf oldData (getPrimaryKeyColumns sch))
          (rowMapOf newData (getPrimaryKeyColumns sch)) = [] ∧
        rowsModifiedOf (rowMapOf oldData (getPrimaryKeyColumns sch))
          (rowMapOf newData (getPrimaryKeyColumns sch)) = [])) := by
  refine ⟨?_, ?_, ?_⟩
  · intro hpk hlen
    simp [compareData, hpk, hlen]
  · intro hpk hlen
    simp [compareData, hpk, hlen]
  · intro hpk
    have hne : ¬(getPrimaryKeyColumns sch).isEmpty = true := by
      simpa [List.isEmpty_iff] using hpk
    simp only [compareData, if_neg hne]
    constructor
    · intro h
      by_cases hc : ((rowsAddedOf (rowMapOf oldData (getPrimaryKeyColumns sch))
            (rowMapOf newData (getPrimaryKeyColumns sch))).isEmpty &&
          (rowsDeletedOf (rowMapOf oldData (getPrimaryKeyColumns sch))
            (rowMapOf newData (getPrimaryKeyColumns sch))).isEmpty &&
          (rowsModifiedOf (rowMapOf oldData (getPrimaryKeyColumns sch))
            (rowMapOf newData (getPrimaryKeyColumns sch))).isEmpty) = true
      · simp only [Bool.and_eq_true, List.isEmpty_iff] at hc
        exact ⟨hc.1.1, hc.1.2, hc.2⟩
      · rw [if_neg hc] at h
        cases h
    · rintro ⟨h1, h2, h3⟩
      rw [h1, h2, h3]
      rfl

/-- Witness for claim C2 at concrete inputs: differing counts, equal
counts, and the primary-key path. -/
theorem compareData_none_policy_witness :
    compareData "t" [] [[("a", Value.vInt 1)]] noPkSchemaEx =
      some ⟨"t", [[("a", Value.vInt 1)]], [], []⟩ ∧
    compareData "t" [[("a", Value.vInt 3)]] [[("a", Value.vInt 4)]] noPkSchemaEx =
      some ⟨"t", [], [], []⟩ ∧
    (compareData "t" [[("id", Value.vInt 7)]] [[("id", Value.vInt 7)]] pkSchemaEx = none ↔
      rowsAddedOf (rowMapOf [[("id", Value.vInt 7)]] (getPrimaryKeyColumns pkSchemaEx))
        (rowMapOf [[("id", Value.vInt 7)]] (getPrimaryKeyColumns pkSchemaEx)) = [] ∧
      rowsDeletedOf (rowMapOf [[("id", Value.vInt 7)]] (getPrimaryKeyColumns pkSchemaEx))
        (rowMapOf [[("id", Value.vInt 7)]] (getPrimaryKeyColumns pkSchemaEx)) = [] ∧
      rowsModifiedOf (rowMapOf [[("id", Value.vInt 7)]] (getPrimaryKeyColumns pkSchemaEx))
        (rowMapOf [[("id", Value.vInt 7)]] (getPrimaryKeyColumns pkSchemaEx)) = []) :=
  ⟨(compareData_none_policy "t" [] [[("a", Value.vInt 1)]] noPkSchemaEx).1
      (by decide) (by decide),
   (compareData_none_policy "t" [[("a", Value.vInt 3)]] [[("a", Value.vInt 4)]]
      noPkSchemaEx).2.1 (by decide) rfl,
   (compareData_none_policy "t" [[("id", Value.vInt 7)]] [[("id", Value.vInt 7)]]
      pkSchemaEx).2.2 (by decide)⟩

/-! ## Claim C7: table presence symmetry -/

/-- Claim C7: a table present only in the second snapshot yields a
SchemaDiff with Action ADD and NewSchema populated and no DataDiff
entry; a table present only in the first snapshot yields Action DROP
with OldSchema populated and no DataDiff entry. -/
theorem compare_table_presence (snap1 snap2 : Snapshot) (name : String) (tb : Table) :
    (goFind (goMapOf snap1.tables) name = none →
     goFind (goMapOf snap2.tables) name = some tb →
      goFind (Compare snap1 snap2).schemaDiffs name =
        some ⟨name, Action.add, none, some tb.schema, [], [], []⟩ ∧
      goFind (Compare snap1 snap2).dataDiffs name = none) ∧
    (goFind (goMapOf snap1.tables) name = some tb →
     goFind (goMapOf snap2.tables) name = none →
      goFind (Compare snap1 snap2).schemaDiffs name =
        some ⟨name, Action.drop, some tb.schema, none, [], [], []⟩ ∧
      goFind (Compare snap1 snap2).dataDiffs name = none) := by
  constructor
  · intro h1 h2
    constructor
    · rw [compare_schemaDiffs_find, compareTableNames_find, h1, h2]
      simp [compareSchemaEntry, h1, h2]
    · rw [compare_dataDiffs_find, compareTableNames_find, h1, h2]
      simp [compareDataEntry, h1, h2]
  · intro h1 h2
    constructor
    · rw [compare_schemaDiffs_find, compareTableNames_find, h1, h2]
      simp [compareSchemaEntry, h1, h2]
    · rw [compare_dataDiffs_find, compareTableNames_find, h1, h2]
      simp [compareDataEntry, h1, h2]

/-- Empty snapshot, used by witnesses. -/
def snapEmptyEx : Snapshot := ⟨[], []⟩

/-- Witness for claim C7: one added and one dropped table. -/
theorem compare_table_presence_witness :
    (goFind (Compare snapEmptyEx pkSnapshotEx).schemaDiffs "t" =
      some ⟨"t", Action.add, none, some pkTableEx.schema, [], [], []⟩ ∧
     goFind (Compare snapEmptyEx pkSnapshotEx).dataDiffs "t" = none) ∧
    (goFind (Compare pkSnapshotEx snapEmptyEx).schemaDiffs "t" =
      some ⟨"t", Action.drop, some pkTableEx.schema, none, [], [], []⟩ ∧
     goFind (Compare pkSnapshotEx snapEmptyEx).dataDiffs "t" = none) :=
  ⟨(compare_table_presence snapEmptyEx pkSnapshotEx "t" pkTableEx).1 (by decide) (by decide),
   (compare_table_presence pkSnapshotEx snapEmptyEx "t" pkTableEx).2 (by decide) (by decide)⟩

/-! ## Claim C8: row identity comes from the second snapshot -/

/-- Claim C8: for a table present in both snapshots, the DataDiffs entry
of Compare equals compareData applied to the old and new rows with the
schema of the SECOND snapshot — the primary key (and the no-primary-key
fallback decision) are read from the new schema, whatever the old
snapshot declares. -/
theorem compare_data_uses_new_schema (snap1 snap2 : Snapshot) (name : String)
    (tb1 tb2 : Table)
    (h1 : goFind (goMapOf snap1.tables) name = some tb1)
    (h2 : goFind (goMapOf snap2.tables) name = some tb2) :
    goFind (Compare snap1 snap2).dataDiffs name =
      compareData name tb1.data tb2.data tb2.schema := by
  rw [compare_dataDiffs_find, compareTableNames_find, h1, h2]
  simp [compareDataEntry, h1, h2]

/-- Schema whose primary index is on column c instead of id. -/
def altPkSchemaEx : TableSchema :=
  ⟨"t", [⟨"id", "INT", false, none, false, 1⟩, ⟨"c", "INT", true, none, false, 2⟩],
   [⟨"PRIMARY", ["c"], true, true, "BTREE"⟩], []⟩

/-- Old-side table declaring a different primary index. -/
def tbOldEx : Table := ⟨altPkSchemaEx, [[("id", Value.vInt 1), ("c", Value.vInt 5)]]⟩

/-- New-side table with the primary index on id. -/
def tbNewEx : Table := ⟨pkSchemaEx, [[("id", Value.vInt 1), ("c", Value.vInt 6)]]⟩

/-- Snapshot holding the old-side table. -/
def snapOldEx : Snapshot := ⟨[], [("t", tbOldEx)]⟩

/-- Snapshot holding the new-side table. -/
def snapNewEx : Snapshot := ⟨[], [("t", tbNewEx)]⟩

/-- Witness for claim C8 where the two snapshots declare different
primary indexes. -/
theorem compare_data_uses_new_schema_witness :
    goFind (Compare snapOldEx snapNewEx).dataDiffs "t" =
      compareData "t" tbOldEx.data tbNewEx.data tbNewEx.schema :=
  compare_data_uses_new_schema snapOldEx snapNewEx "t" tbOldEx tbNewEx (by decide) (by decide)

/-! ## Claim C9: duplicate primary keys, last row wins -/

/-- Last row of a row list whose primary-key tuple encodes to the given
key, in input order. -/
def lastWithKey (rows : List Row) (pk : List String) (k : String) : Option Row :=
  rows.reverse.find? (fun r => rowKey r pk == k)

/-- The row map of compareData holds, for every key, the last row of the
input with that key: earlier rows with a duplicate key are overwritten. -/
theorem rowMap_lastWithKey (rows : List Row) (pk : List String) (k : String) :
    goFind (rowMapOf rows pk) k = lastWithKey rows pk k := by
  unfold rowMapOf lastWithKey
  rw [goFind_goMapOf]
  unfold lookupLast
  rw [← List.map_reverse, List.find?_map]
  rw [Option.map_map]
  have hco : ((fun p => p.1 == k) ∘ fun row => (rowKey row pk, row)) =
      (fun r => rowKey r pk == k) := rfl
  rw [hco]
  cases h : rows.reverse.find? (fun r => rowKey r pk == k) <;> simp [h]

theorem mem_rowMapOf (rows : List Row) (pk : List String) (k : String) (r : Row)
    (h : (k, r) ∈ rowMapOf rows pk) :
    k = rowKey r pk ∧ lastWithKey rows pk k = some r := by
  have h1 := mem_goMapOf _ _ h
  rw [List.mem_map] at h1
  obtain ⟨row, hrow, hf⟩ := h1
  have hk : k = rowKey r pk ∧ row = r := by
    have := Prod.mk.injEq (rowKey row pk) row k r ▸ hf
    refine ⟨?_, ?_⟩
    · rw [← this.1]
      rw [this.2]
    · exact this.2
  refine ⟨hk.1, ?_⟩
  rw [← rowMap_lastWithKey]
  exact goFind_of_mem_nodup _ _ _ (nodup_goKeys_goMapOf _) h

/-- Claim C9: when a row list contains several rows with the same
primary-key tuple, only the last such row (in input order) is kept in
the key map, and every row appearing in the added, deleted or modified
lists of compareData is the last row of its key — earlier duplicates
never appear. -/
theorem compareData_last_duplicate_wins (tn : String) (oldData newData : List Row)
    (sch : TableSchema) (d : DataDiff)
    (hpk : getPrimaryKeyColumns sch ≠ [])
    (hd : compareData tn oldData newData sch = some d) :
    (∀ k, goFind (rowMapOf oldData (getPrimaryKeyColumns sch)) k =
      lastWithKey oldData (getPrimaryKeyColumns sch) k) ∧
    (∀ k, goFind (rowMapOf newData (getPrimaryKeyColumns sch)) k =
      lastWithKey newData (getPrimaryKeyColumns sch) k) ∧
    (∀ r ∈ d.rowsAdded,
      lastWithKey newData (getPrimaryKeyColumns sch)
        (rowKey r (getPrimaryKeyColumns sch)) = some r) ∧
    (∀ r ∈ d.rowsDeleted,
      lastWithKey oldData (getPrimaryKeyColumns sch)
        (rowKey r (getPrimaryKeyColumns sch)) = some r) ∧
    (∀ m ∈ d.rowsModified,
      lastWithKey oldData (getPrimaryKeyColumns sch)
        (rowKey m.oldRow (getPrimaryKeyColumns sch)) = some m.oldRow ∧
      lastWithKey newData (getPrimaryKeyColumns sch)
        (rowKey m.newRow (getPrimaryKeyColumns sch)) = some m.newRow) := by
  have hne : ¬(getPrimaryKeyColumns sch).isEmpty = true := by
    simpa [List.isEmpty_iff] using hpk
  simp only [compareData, if_neg hne] at hd
  have hlists : d.rowsAdded = rowsAddedOf (rowMapOf oldData (getPrimaryKeyColumns sch))
        (rowMapOf newData (getPrimaryKeyColumns sch)) ∧
      d.rowsDeleted = rowsDeletedOf (rowMapOf oldData (getPrimaryKeyColumns sch))
        (rowMapOf newData (getPrimaryKeyColumns sch)) ∧
      d.rowsModified = rowsModifiedOf (rowMapOf oldData (getPrimaryKeyColumns sch))
        (rowMapOf newData (getPrimaryKeyColumns sch)) := by
    by_cases hc : ((rowsAddedOf (rowMapOf oldData (getPrimaryKeyColumns sch))
          (rowMapOf newData (getPrimaryKeyColumns sch))).isEmpty &&
        (rowsDeletedOf (rowMapOf oldData (getPrimaryKeyColumns sch))
          (rowMapOf newData (getPrimaryKeyColumns sch))).isEmpty &&
        (rowsModifiedOf (rowMapOf oldData (getPrimaryKeyColumns sch))
          (rowMapOf newData (getPrimaryKeyColumns sch))).isEmpty) = true
    · rw [if_pos hc] at hd
      cases hd
    · rw [if_neg hc] at hd
      cases hd
      exact ⟨rfl, rfl, rfl⟩
  refine ⟨fun k => rowMap_lastWithKey oldData _ k,
    fun k => rowMap_lastWithKey newData _ k, ?_, ?_, ?_⟩
  · intro r hr
    rw [hlists.1] at hr
    unfold rowsAddedOf at hr
    rw [List.mem_filterMap] at hr
    obtain ⟨p, hp, hpr⟩ := hr
    cases hf : goFind (rowMapOf oldData (getPrimaryKeyColumns sch)) p.1 with
    | some _ => rw [hf] at hpr; cases hpr
    | none =>
      rw [hf] at hpr
      have hr2 : p.2 = r := by cases hpr; rfl
      have hmem := mem_rowMapOf newData (getPrimaryKeyColumns sch) p.1 p.2 (by simpa using hp)
      rw [hr2] at hmem
      rw [← hmem.1]
      rw [hmem.2]
  · intro r hr
    rw [hlists.2.1] at hr
    unfold rowsDeletedOf at hr
    rw [List.mem_filterMap] at hr
    obtain ⟨p, hp, hpr⟩ := hr
    cases hf : goFind (rowMapOf newData (getPrimaryKeyColumns sch)) p.1 with
    | some _ => rw [hf] at hpr; cases hpr
    | none =>
      rw [hf] at hpr
      have hr2 : p.2 = r := by cases hpr; rfl
      have hmem := mem_rowMapOf oldData (getPrimaryKeyColumns sch) p.1 p.2 (by simpa using hp)
      rw [hr2] at hmem
      rw [← hmem.1]
      rw [hmem.2]
  · intro m hm
    rw [hlists.2.2] at hm
    unfold rowsModifiedOf at hm
    rw [List.mem_filterMap] at hm
    obtain ⟨p, hp, hpm⟩ := hm
    cases hf : goFind (rowMapOf oldData (getPrimaryKeyColumns sch)) p.1 with
    | none => rw [hf] at hpm; cases hpm
    | some oldRow =>
      rw [hf] at hpm
      have hpm' : (if rowsEqual oldRow p.2 then none
          else some (⟨oldRow, p.2⟩ : RowModification)) = some m := hpm
      by_cases hre : rowsEqual oldRow p.2 = true
      · rw [if_pos hre] at hpm'
        cases hpm'
      · rw [if_neg hre] at hpm'
        have hm2 : m.oldRow = oldRow ∧ m.newRow = p.2 := by cases hpm'; exact ⟨rfl, rfl⟩

        have hmemN := mem_rowMapOf newData (getPrimaryKeyColumns sch) p.1 p.2 (by simpa using hp)
        have hlastO : lastWithKey oldData (getPrimaryKeyColumns sch) p.1 = some oldRow := by
          rw [← rowMap_lastWithKey]
          exact hf
        have hkeyO : rowKey oldRow (getPrimaryKeyColumns sch) = p.1 := by
          have := List.find?_some hlastO
          exact beq_iff_eq.mp this
        constructor
        · rw [hm2.1, hkeyO, hlastO]
        · rw [hm2.2, ← hmemN.1, hmemN.2]

/-- Rows sharing the primary key id = 1, used by the C9 witness. -/
def dupRow1 : Row := [("id", Value.vInt 1), ("c", Value.vInt 1)]

/-- Second row with the same key, later in input order. -/
def dupRow2 : Row := [("id", Value.vInt 1), ("c", Value.vInt 2)]

/-- New-side row with the same key. -/
def dupNewRow : Row := [("id", Value.vInt 1), ("c", Value.vInt 3)]

/-- Witness for claim C9: with two old rows sharing a key, only the
later one appears, as the old side of the single modification. -/
theorem compareData_last_duplicate_wins_witness :
    (∀ k, goFind (rowMapOf [dupRow1, dupRow2] (getPrimaryKeyColumns pkSchemaEx)) k =
      lastWithKey [dupRow1, dupRow2] (getPrimaryKeyColumns pkSchemaEx) k) ∧
    (∀ k, goFind (rowMapOf [dupNewRow] (getPrimaryKeyColumns pkSchemaEx)) k =
      lastWithKey [dupNewRow] (getPrimaryKeyColumns pkSchemaEx) k) ∧
    (∀ r ∈ (⟨"t", [], [], [⟨dupRow2, dupNewRow⟩]⟩ : DataDiff).rowsAdded,
      lastWithKey [dupNewRow] (getPrimaryKeyColumns pkSchemaEx)
        (rowKey r (getPrimaryKeyColumns pkSchemaEx)) = some r) ∧
    (∀ r ∈ (⟨"t", [], [], [⟨dupRow2, dupNewRow⟩]⟩ : DataDiff).rowsDeleted,
      lastWithKey [dupRow1, dupRow2] (getPrimaryKeyColumns pkSchemaEx)
        (rowKey r (getPrimaryKeyColumns pkSchemaEx)) = some r) ∧
    (∀ m ∈ (⟨"t", [], [], [⟨dupRow2, dupNewRow⟩]⟩ : DataDiff).rowsModified,
      lastWithKey [dupRow1, dupRow2] (getPrimaryKeyColumns pkSchemaEx)
        (rowKey m.oldRow (getPrimaryKeyColumns pkSchemaEx)) = some m.oldRow ∧
      lastWithKey [dupNewRow] (getPrimaryKeyColumns pkSchemaEx)
        (rowKey m.newRow (getPrimaryKeyColumns pkSchemaEx)) = some m.newRow) :=
  compareData_last_duplicate_wins "t" [dupRow1, dupRow2] [dupNewRow] pkSchemaEx
    ⟨"t", [], [], [⟨dupRow2, dupNewRow⟩]⟩ (by decide) (by decide)

/-! ## Claim C10: fields ignored by the schema comparator -/

/-- A column with its ordinal position cleared. -/
def clearPosition (c : Column) : Column := { c with position := 0 }

/-- An index with its kind (Type field) cleared. -/
def clearIndexType (i : Index) : Index := ⟨i.name, i.columns, i.unique, i.primary, ""⟩

theorem columnsEqual_of_clearPosition (a b : Column)
    (h : clearPosition a = clearPosition b) : columnsEqual a b = true := by
  have g1 := congrArg Column.name h
  have g2 := congrArg Column.type h
  have g3 := congrArg Column.nullable h
  have g4 := congrArg Column.autoIncrement h
  have g5 := congrArg Column.defaultValue h
  have h1 : a.name = b.name := g1
  have h2 : a.type = b.type := g2
  have h3 : a.nullable = b.nullable := g3
  have h4 : a.autoIncrement = b.autoIncrement := g4
  have h5 : a.defaultValue = b.defaultValue := g5
  unfold columnsEqual
  rw [h1, h2, h3, h4, h5]
  cases b.defaultValue <;> simp

theorem indexesEqual_of_clearIndexType (a b : Index)
    (h : clearIndexType a = clearIndexType b) : indexesEqual a b = true := by
  have g1 := congrArg Index.name h
  have g2 := congrArg Index.columns h
  have g3 := congrArg Index.unique h
  have g4 := congrArg Index.primary h
  have h1 : a.name = b.name := g1
  have h2 : a.columns = b.columns := g2
  have h3 : a.unique = b.unique := g3
  have h4 : a.primary = b.primary := g4
  unfold indexesEqual
  rw [h1, h2, h3, h4]
  simp

theorem find?_congr_of_map_eq (proj : α → β) (p : α → Bool) (q : β → Bool)
    (hpq : ∀ a, p a = q (proj a)) :
    ∀ (l₁ l₂ : List α), l₁.map proj = l₂.map proj →
      (l₁.find? p).map proj = (l₂.find? p).map proj := by
  intro l₁
  induction l₁ with
  | nil =>
    intro l₂ h
    cases l₂ with
    | nil => rfl
    | cons b l₂ => simp at h
  | cons a l₁ ih =>
    intro l₂ h
    cases l₂ with
    | nil => simp at h
    | cons b l₂ =>
      rw [List.map_cons, List.map_cons] at h
      have h1 : proj a = proj b := by
        injection h
      have h2 : l₁.map proj = l₂.map proj := by
        injection h
      have hpab : p a = p b := by
        rw [hpq a, hpq b, h1]
      rw [List.find?_cons, List.find?_cons]
      cases hq : p a with
      | true =>
        rw [← hpab, hq]
        simp [h1]
      | false =>
        rw [← hpab, hq]
        exact ih l₂ h2

/-- Generic lookup shape of the name-keyed maps of compareSchemas. -/
theorem goFind_keyedMap (l : List α) (name : α → String) (k : String) :
    goFind (goMapOf (l.map fun a => (name a, a))) k =
      l.reverse.find? (fun a => name a == k) := by
  rw [goFind_goMapOf]
  unfold lookupLast
  rw [← List.map_reverse, List.find?_map, Option.map_map]
  have hco : ((fun p => p.1 == k) ∘ fun a => (name a, a)) = (fun a => name a == k) := rfl
  rw [hco]
  cases h : l.reverse.find? (fun a => name a == k) <;> simp [h]

/-- Reconciling two maps whose entries agree under a projection that the
equality predicate cannot distinguish yields no change records. -/
theorem diffNamed_eq_nil (oldM newM : List (String × α)) (eqFn : α → α → Bool)
    (mk : String → Action → Option α → Option α → β) (proj : α → γ)
    (hndo : (goKeys oldM).Nodup) (hndn : (goKeys newM).Nodup)
    (hfind : ∀ k, (goFind oldM k).map proj = (goFind newM k).map proj)
    (heq : ∀ a b, proj a = proj b → eqFn a b = true) :
    diffNamed oldM newM eqFn mk = [] := by
  unfold diffNamed
  rw [List.append_eq_nil]
  constructor
  · rw [List.filterMap_eq_nil_iff]
    intro p hp
    have hn : goFind newM p.1 = some p.2 :=
      goFind_of_mem_nodup _ _ _ hndn (by simpa using hp)
    have hf := hfind p.1
    rw [hn] at hf
    simp only [Option.map_some, Option.map_some'] at hf
    rw [Option.map_eq_some'] at hf
    obtain ⟨a, ha, hap⟩ := hf
    simp [ha, heq a p.2 hap]
  · rw [List.filterMap_eq_nil_iff]
    intro p hp
    have ho : goFind oldM p.1 = some p.2 :=
      goFind_of_mem_nodup _ _ _ hndo (by simpa using hp)
    have hf := hfind p.1
    rw [ho] at hf
    have : (goFind newM p.1).isSome = true := by
      cases hn : goFind newM p.1 with
      | none => rw [hn] at hf; simp at hf
      | some b => rfl
    obtain ⟨b, hb⟩ := Option.isSome_iff_exists.mp this
    simp [hb]

/-- Claim C10: two table schemas that differ only in column ordinal
positions and index kinds (the Type field of Index) produce no schema
diff: columnsEqual ignores Position and indexesEqual ignores Type, so
compareSchemas returns none. -/
theorem compareSchemas_ignores_position_and_index_type (old new : TableSchema)
    (hname : old.name = new.name)
    (hcols : old.columns.map clearPosition = new.columns.map clearPosition)
    (hidxs : old.indexes.map clearIndexType = new.indexes.map clearIndexType)
    (hfks : old.foreignKeys = new.foreignKeys) :
    compareSchemas old new = none := by
  have hcolsRev : old.columns.reverse.map clearPosition =
      new.columns.reverse.map clearPosition := by
    rw [List.map_reverse, List.map_reverse, hcols]
  have hidxsRev : old.indexes.reverse.map clearIndexType =
      new.indexes.reverse.map clearIndexType := by
    rw [List.map_reverse, List.map_reverse, hidxs]
  have hc : diffNamed (goMapOf (old.columns.map fun c => (c.name, c)))
      (goMapOf (new.columns.map fun c => (c.name, c))) columnsEqual
      (fun n a o nw => ({ columnName := n, action := a, oldColumn := o, newColumn := nw } :
        ColumnChange)) = [] := by
    apply diffNamed_eq_nil _ _ _ _ clearPosition
      (nodup_goKeys_goMapOf _) (nodup_goKeys_goMapOf _)
    · intro k
      rw [goFind_keyedMap, goFind_keyedMap]
      exact find?_congr_of_map_eq clearPosition (fun c => c.name == k)
        (fun c => c.name == k) (fun c => rfl) _ _ hcolsRev
    · exact columnsEqual_of_clearPosition
  have hi : diffNamed (goMapOf (old.indexes.map fun i => (i.name, i)))
      (goMapOf (new.indexes.map fun i => (i.name, i))) indexesEqual
      (fun n a o nw => ({ indexName := n, action := a, oldIndex := o, newIndex := nw } :
        IndexChange)) = [] := by
    apply diffNamed_eq_nil _ _ _ _ clearIndexType
      (nodup_goKeys_goMapOf _) (nodup_goKeys_goMapOf _)
    · intro k
      rw [goFind_keyedMap, goFind_keyedMap]
      exact find?_congr_of_map_eq clearIndexType (fun i => i.name == k)
        (fun i => i.name == k) (fun i => rfl) _ _ hidxsRev
    · exact indexesEqual_of_clearIndexType
  have hf : diffNamed (goMapOf (old.foreignKeys.map fun f => (f.name, f)))
      (goMapOf (new.foreignKeys.map fun f => (f.name, f))) foreignKeysEqual
      (fun n a o nw => ({ fkName := n, action := a, oldForeignKey := o, newForeignKey := nw } :
        ForeignKeyChange)) = [] := by
    rw [hfks]
    exact diffNamed_self _ _ _ (nodup_goKeys_goMapOf _) (fun p _ => foreignKeysEqual_refl p.2)
  simp only [compareSchemas, hc, hi, hf]
  rfl

/-- First schema of the C10 witness. -/
def posSchemaA : TableSchema :=
  ⟨"t", [⟨"a", "INT", true, none, false, 1⟩, ⟨"b", "INT", true, none, false, 2⟩],
   [⟨"i", ["a"], false, false, "BTREE"⟩], []⟩

/-- Second schema: same as the first except column positions and the
index kind differ. -/
def posSchemaB : TableSchema :=
  ⟨"t", [⟨"a", "INT", true, none, false, 2⟩, ⟨"b", "INT", true, none, false, 7⟩],
   [⟨"i", ["a"], false, false, "HASH"⟩], []⟩

/-- Witness for claim C10 at two concrete schemas. -/
theorem compareSchemas_ignores_position_and_index_type_witness :
    compareSchemas posSchemaA posSchemaB = none :=
  compareSchemas_ignores_position_and_index_type posSchemaA posSchemaB
    rfl (by decide) (by decide) rfl

/-! ## Claim C3: serialized output depends on map enumeration order -/

/-- Snapshot with two tables a and b, both dropped against the empty
snapshot. -/
def snapTwoTablesEx : Snapshot :=
  ⟨[], [("a", ⟨⟨"a", [], [], []⟩, []⟩), ("b", ⟨⟨"b", [], [], []⟩, []⟩)]⟩

/-- Claim C3 fails on the code: GenerateSQL ranges over the Go result
maps, whose enumeration order is an arbitrary permutation of the keys
(Go randomizes map range order).  For the diff dropping tables a and b,
the two possible enumeration orders of the SchemaDiffs map — both
permutations of its key set — produce different serialized scripts, so
two runs with identical inputs need not produce bit-identical output. -/
theorem generate_sql_depends_on_map_order :
    (Compare snapTwoTablesEx snapEmptyEx).schemaDiffs.map Prod.fst = ["a", "b"] ∧
    (["a", "b"] : List String).Perm ["b", "a"] ∧
    GenerateSQL (Compare snapTwoTablesEx snapEmptyEx) "mysql" ["a", "b"] [] ≠
      GenerateSQL (Compare snapTwoTablesEx snapEmptyEx) "mysql" ["b", "a"] [] := by
  refine ⟨by decide, by decide, by decide⟩

end DbDiff
